import Mathlib

set_option maxRecDepth 40000

/-!
Shallow embedding of the core of `src/Utils/FuriganaManager.py` (FuriganaAssistant):
the `Term` grammar (validation, template generation, decomposition), the
`auto_divide` solver, the `Dictionary` operations and the line tokenizers.

Modelling conventions:
* Python `str` is modelled as `List Char` (`PyStr`); `s[i]` on an empty string
  becomes an `indexError`.
* Fallible Python code returns `Except PyErr _`; each Python exception class is
  one `PyErr` constructor.
* Python's Unicode-aware `str.isdigit` / `str.isalpha` / `str.lower` /
  `str.upper` are modelled by the corresponding ASCII `Char` functions
  (identity outside ASCII); the inputs exercised by the theorems below are
  CJK/kana/ASCII, where these agree with Python.
* `re` patterns that are fixed in the source (`Dictionary.PATTERNS`,
  `Term.PATTERNS`) are embedded as dedicated matching functions implementing
  the documented semantics of those exact patterns; patterns that the source
  builds dynamically (`Term.re_pattern`, `Term.pre_to_token`,
  `Term.auto_divide`) go through a small backtracking regex engine
  (`reCompile` / `reMatch`) for the construct subset Python's `re` is given
  here, including the compile-time rejection of a quantifier with nothing to
  repeat.  The `.`-does-not-match-newline subtlety is modelled in the engine;
  the fixed-pattern helpers assume newline-free inputs, which holds for every
  input considered here.
* Loops whose termination depends on dictionary contents (the tokenizer scan
  loop, regex backtracking) take explicit fuel; running out of fuel is the
  distinguished error `fuelExhausted`, never silently conflated with a normal
  result.
-/

deriving instance DecidableEq for Except

namespace FA

/-- Python strings as lists of characters. -/
abbrev PyStr := List Char

/-- String literal helper. -/
def pystr (s : String) : PyStr := s.toList

/-- Instance synthesis for `Option` equality fails to fire on the deep product
types used below; this is the standard instance, stated once. -/
instance optionDecEq {α : Type} [DecidableEq α] : DecidableEq (Option α) := fun a b =>
  match a, b with
  | none, none => isTrue rfl
  | some x, some y => if h : x = y then isTrue (by rw [h]) else isFalse (by simp [h])
  | none, some _ => isFalse (by simp)
  | some _, none => isFalse (by simp)

/-- The Python exceptions (and model-level outcomes) the embedded code can raise. -/
inductive PyErr where
  | valueError
  | typeError
  | indexError
  | keyError
  | reError
  | overflowError
  | disabledError
  | earlyEmptyReturn
  | fuelExhausted
deriving DecidableEq, Repr

/-- `Term.is_hiragana`: `12353 <= ord(c) <= 12436`. -/
def is_hiragana (c : Char) : Bool :=
  decide (12353 ≤ c.toNat) && decide (c.toNat ≤ 12436)

/-- `Term.is_katakana`: `12449 <= ord(c) <= 12538 or ord(c) == 12540`. -/
def is_katakana (c : Char) : Bool :=
  (decide (12449 ≤ c.toNat) && decide (c.toNat ≤ 12538)) || decide (c.toNat = 12540)

/-- `Term.is_kana`. -/
def is_kana (c : Char) : Bool := is_hiragana c || is_katakana c

/-- `Term.is_cjk_unified`: the CJK unified ideograph ranges tested in the source. -/
def is_cjk_unified (c : Char) : Bool :=
  let n := c.toNat
  (decide (0x4E00 ≤ n) && decide (n ≤ 0x9FFF)) ||
  (decide (0x3400 ≤ n) && decide (n ≤ 0x4DBF)) ||
  (decide (0x20000 ≤ n) && decide (n ≤ 0x2A6DF)) ||
  (decide (0x2A700 ≤ n) && decide (n ≤ 0x2B73F)) ||
  (decide (0x2B740 ≤ n) && decide (n ≤ 0x2B81F)) ||
  (decide (0x2B820 ≤ n) && decide (n ≤ 0x2CEAF)) ||
  (decide (0x2CEB0 ≤ n) && decide (n ≤ 0x2EBEF)) ||
  (decide (0x30000 ≤ n) && decide (n ≤ 0x3134F)) ||
  (decide (0x31350 ≤ n) && decide (n ≤ 0x323AF)) ||
  (decide (0x2EBF0 ≤ n) && decide (n ≤ 0x2EE5F)) ||
  decide (n = 0x3005)

/-- Single-character body of `Term.is_jp_str` (CJK, kana, digit, or `.`/`-`/`+`). -/
def isJpChar (c : Char) : Bool :=
  is_cjk_unified c || is_kana c || c.isDigit || c = '.' || c = '-' || c = '+'

/-- `Term.is_jp_str`. -/
def is_jp_str (s : PyStr) : Bool := s.all isJpChar

/-- `Term.is_jp_valid_str`: Japanese characters plus the three separators. -/
def is_jp_valid_str (s : PyStr) : Bool :=
  s.all fun c => isJpChar c || c = '/' || c = '\\' || c = '*'

/-- `lambda s: all(c.isalpha() or c == "'" for c in s)` used for 英語 terms. -/
def en_valid (s : PyStr) : Bool := s.all fun c => c.isAlpha || c = '\''

/-- `Term.is_valid_transfer`.  Faithful to the source's index arithmetic: after a
valid `$x` escape the loop advances by three, so the character directly after an
escape pair is skipped unchecked. -/
def is_valid_transfer : PyStr → Bool
  | [] => true
  | ['$'] => false
  | ['$', c] => c = '/' || c = '\\' || c = '*' || c = '$'
  | '$' :: c :: _ :: rest3 =>
    if c = '/' || c = '\\' || c = '*' || c = '$' then is_valid_transfer rest3
    else false
  | _ :: rest => is_valid_transfer rest

/-- Helper for `Term.div_remove`: the lookbehind `(?<!\$)` inspects the previous
character of the original string. -/
def div_remove_go (dc : Char) : Option Char → PyStr → PyStr
  | _, [] => []
  | prev, c :: rest =>
    if c = dc && prev ≠ some '$' then div_remove_go dc (some c) rest
    else c :: div_remove_go dc (some c) rest

/-- `Term.div_remove`: `re.sub("(?<!\$)X", "", s)` for a separator `X`. -/
def div_remove (s : PyStr) (dc : Char) : PyStr := div_remove_go dc none s

/-- Helper for `Term.div_split`. -/
def div_split_go (dc : Char) : Option Char → PyStr → PyStr → List PyStr
  | _, cur, [] => [cur.reverse]
  | prev, cur, c :: rest =>
    if c = dc && prev ≠ some '$' then cur.reverse :: div_split_go dc (some c) [] rest
    else div_split_go dc (some c) (c :: cur) rest

/-- `Term.div_split`: `re.split("(?<!\$)X", s)`. -/
def div_split (s : PyStr) (dc : Char) : List PyStr := div_split_go dc none [] s

/-- Fuel-indexed body of `pyReplace`; fuel `s.length` always suffices because a
non-empty pattern consumes at least one character per step. -/
def pyReplaceFuel (pat rep : PyStr) : Nat → PyStr → PyStr
  | _, [] => []
  | 0, s => s
  | fu + 1, c :: rest =>
    if pat ≠ [] && pat.isPrefixOf (c :: rest) then
      rep ++ pyReplaceFuel pat rep fu ((c :: rest).drop pat.length)
    else
      c :: pyReplaceFuel pat rep fu rest

/-- Plain `str.replace(pat, rep)`, non-overlapping left-to-right. -/
def pyReplace (pat rep s : PyStr) : PyStr := pyReplaceFuel pat rep s.length s

/-- `Term.remove_seps`: strip unescaped separators, then unescape. -/
def remove_seps (s : PyStr) : PyStr :=
  let s := div_remove s '/'
  let s := div_remove s '\\'
  let s := div_remove s '*'
  let s := pyReplace (pystr "$/") (pystr "/") s
  let s := pyReplace (pystr "$\\") (pystr "\\") s
  let s := pyReplace (pystr "$*") (pystr "*") s
  pyReplace (pystr "$$") (pystr "$") s

/-- Index of the rightmost `*` that has at least one character before it and is
not directly preceded by `$` — the split point found by the greedy patterns
`^(.+)(?<!\$)\*...` of `Term.PATTERNS`. -/
def gobiIdx (s : PyStr) : Option Nat :=
  ((List.range s.length).filter fun i =>
    decide (1 ≤ i) && (s.get? i = some '*') && !(s.get? (i - 1) = some '$')).getLast?

/-- `Term.remove_gobi` (the `MultipleGobiError` branch is dead code: the pattern
has a single group, so `lastindex` is always 1). -/
def remove_gobi (s : PyStr) : PyStr :=
  match gobiIdx s with
  | some i => s.take i
  | none => s

/-- `Term.get_gobi`: everything after the split point, `ValueError` if none. -/
def get_gobi (s : PyStr) : Except PyErr PyStr :=
  match gobiIdx s with
  | some i => .ok (s.drop (i + 1))
  | none => .error .valueError

/-- `Term.is_gobi_exists`: `^.+(?<!\$)(\*).+$` — a qualifying `*` with at least
one character on each side. -/
def is_gobi_exists (s : PyStr) : Bool :=
  (List.range s.length).any fun i =>
    decide (1 ≤ i) && (s.get? i = some '*') && !(s.get? (i - 1) = some '$') &&
      decide (i + 1 < s.length)

/-- The nine godan gobi accepted by `Term.is_valid`. -/
def gobi9 : List PyStr :=
  [pystr "う", pystr "く", pystr "ぐ", pystr "す", pystr "つ",
   pystr "ぬ", pystr "ぶ", pystr "む", pystr "る"]

/-- Per-segment check of `Term.is_valid` (the loop over `jp_list`). -/
def segValid (ty : PyStr) (je ke de : PyStr) : Bool :=
  if ty ≠ pystr "固有" then
    if je.all is_kana then
      if je.all (fun c => !is_kana c) then false
      else if je = ke && de = pystr "-1" then true
      else false
    else
      if je.all (fun c => !is_kana c) then
        de = pystr "0" || de = pystr "1" || de = pystr "2"
      else false
  else
    de = pystr "-1" || de = pystr "0" || de = pystr "1" || de = pystr "2"

/-- The tail of `Term.is_valid`: split into segments, compare lengths, check
each aligned segment. -/
def segsValid (ty : PyStr) (dc : Char) (jp kana division : PyStr) : Bool :=
  let jl := div_split jp dc
  let kl := div_split kana dc
  let dl := div_split division dc
  if jl.length ≠ kl.length || jl.length ≠ dl.length then false
  else (jl.zip (kl.zip dl)).all fun p => segValid ty p.1 p.2.1 p.2.2

/-- `Term.is_valid` for one `div_type` (0 or 1). -/
def is_valid (jp kana div0 div1 ty : PyStr) (dt : Nat) : Bool :=
  if !([jp, kana, div0, div1].all is_valid_transfer) then false
  else if (ty ≠ pystr "英語" && ty ≠ pystr "固有") && !([jp, kana].all is_jp_valid_str) then
    false
  else
    let other : Char := if dt = 0 then '\\' else '/'
    let dc : Char := if dt = 0 then '/' else '\\'
    let jp1 := div_remove jp other
    let kana1 := div_remove kana other
    let division := div_remove (if dt = 0 then div0 else div1) other
    let g1 := is_gobi_exists jp1
    let g2 := is_gobi_exists kana1
    let g3 := is_gobi_exists division
    if ty = pystr "名詞" || ty = pystr "固有" then
      if g1 || g2 || g3 then false
      else segsValid ty dc jp1 kana1 division
    else if ty = pystr "カ変" then
      if jp1 ≠ pystr "来る" || kana1 ≠ pystr "くる" || division ≠ pystr "0" then false
      else true
    else if ty = pystr "英語" then
      if g1 || g2 || g3 then false
      else
        let divFlag := (division = pystr "1" && decide (dt = 0)) ||
          (division = pystr "0" && decide (dt = 1))
        en_valid jp1 && divFlag
    else
      if !(g1 && g2 && g3) then false
      else
        match get_gobi jp1, get_gobi kana1, get_gobi division with
        | .ok jg, .ok kg, .ok dg =>
          if jg ≠ kg || dg ≠ pystr "-1" then false
          else
            let gobiOk :=
              if ty = pystr "五段" then gobi9.any fun g => jg = g
              else if ty = pystr "上下" then jg = pystr "る"
              else if ty = pystr "サ変" then jg = pystr "する"
              else if ty = pystr "形容" then jg = pystr "い"
              else false
            if !gobiOk then false
            else segsValid ty dc (remove_gobi jp1) (remove_gobi kana1) (remove_gobi division)
        | _, _, _ => false

/-- A constructed `Term` (the fields set by `Term.__init__`). -/
structure Term where
  jp : PyStr
  kana : PyStr
  div0 : PyStr
  div1 : PyStr
  term_type : PyStr
  pri : Int
deriving DecidableEq, Repr

/-- `Term.__init__`: store the fields, raise `ValueError` unless both
`is_valid(0)` and `is_valid(1)` hold. -/
def mkTerm (jp kana div0 div1 ty : PyStr) (pri : Int) : Except PyErr Term :=
  if is_valid jp kana div0 div1 ty 0 && is_valid jp kana div0 div1 ty 1 then
    .ok ⟨jp, kana, div0, div1, ty, pri⟩
  else .error .valueError

/-- Digits to a number. -/
def digitsToNat (ds : PyStr) : Nat := ds.foldl (fun a c => a * 10 + (c.toNat - 48)) 0

/-- Strip surrounding spaces, as `int(str)` does. -/
def pyTrim (s : PyStr) : PyStr :=
  ((s.dropWhile (· = ' ')).reverse.dropWhile (· = ' ')).reverse

/-- Python `int(str)`: optional surrounding spaces and sign, decimal digits. -/
def pyInt (s : PyStr) : Except PyErr Int :=
  match pyTrim s with
  | '-' :: ds =>
    if ds ≠ [] && ds.all Char.isDigit then .ok (-(Int.ofNat (digitsToNat ds)))
    else .error .valueError
  | '+' :: ds =>
    if ds ≠ [] && ds.all Char.isDigit then .ok (Int.ofNat (digitsToNat ds))
    else .error .valueError
  | ds =>
    if ds ≠ [] && ds.all Char.isDigit then .ok (Int.ofNat (digitsToNat ds))
    else .error .valueError

/-- Character-wise model of `str.lower` (ASCII; identity elsewhere). -/
def pyLower (s : PyStr) : PyStr := s.map Char.toLower

/-- One stored dictionary row (the columns written by `Term.to_dict`). -/
structure DicRow where
  jp : PyStr
  kana : PyStr
  div0 : PyStr
  div1 : PyStr
  term_type : PyStr
  pri : Int
deriving DecidableEq, Repr

/-- `Term.to_dict`. -/
def Term.to_dict (t : Term) : DicRow :=
  ⟨t.jp, t.kana, t.div0, t.div1, t.term_type, t.pri⟩

/-- The mutable state of a `Dictionary`: the labelled rows of `self.dic` in
storage order, plus the id counter `self.index`. -/
structure Dict where
  rows : List (Nat × DicRow)
  index : Nat
deriving DecidableEq, Repr

/-- `Dictionary.is_exists`: a row equal to the term on all six fields
(`int(row["Priority"])` is the identity on the stored int). -/
def is_exists (d : Dict) (t : Term) : Bool :=
  d.rows.any fun r =>
    r.2.jp = t.jp && r.2.kana = t.kana && r.2.div0 = t.div0 && r.2.div1 = t.div1 &&
      r.2.term_type = t.term_type && r.2.pri = t.pri

/-- `df.loc[label] = row`: replace every row carrying the label if any exists,
otherwise append a new row at the end. -/
def setLoc (rows : List (Nat × DicRow)) (label : Nat) (row : DicRow) : List (Nat × DicRow) :=
  if rows.any fun r => r.1 = label then
    rows.map fun r => if r.1 = label then (label, row) else r
  else rows ++ [(label, row)]

/-- `Dictionary.append`: no-op on an existing term, else store at `self.index`
and return the assigned id. -/
def dicAppend (d : Dict) (t : Term) : Dict × Option Nat :=
  if is_exists d t then (d, none)
  else (⟨setLoc d.rows d.index t.to_dict, d.index + 1⟩, some d.index)

/-- `Dictionary.remove`: drop every row with the label; report whether it existed. -/
def dicRemove (d : Dict) (i : Nat) : Dict × Bool :=
  if d.rows.any fun r => r.1 = i then
    (⟨d.rows.filter fun r => r.1 ≠ i, d.index⟩, true)
  else (d, false)

/-- The state invariant maintained by `Dictionary.__init__`
(`self.index = self.dic.index.max() + 1`) and by `append`/`remove`: the id
counter is strictly above every stored label. -/
def DictWF (d : Dict) : Prop := ∀ r ∈ d.rows, r.1 < d.index

instance (d : Dict) : Decidable (DictWF d) := by
  unfold DictWF; infer_instance

/-- One mutation step of a dictionary: an `append` or a `remove`. -/
def DictStep (d d' : Dict) : Prop :=
  (∃ t, d' = (dicAppend d t).1) ∨ (∃ i, d' = (dicRemove d i).1)

/-- Reachability by any number of `append`/`remove` steps. -/
def DictReach : Dict → Dict → Prop := Relation.ReflTransGen DictStep

/-- A fixed sample term value used by concrete witnesses. -/
def tokyoTerm : Term :=
  ⟨pystr "東京", pystr "とうきょう", pystr "0", pystr "0", pystr "名詞", 1⟩

/-- The empty dictionary state (fresh `Dictionary` over a missing csv). -/
def emptyDict : Dict := ⟨[], 0⟩

/-- A pandas cell as `Dictionary.check` sees it: a string, or the float NaN
that `pd.read_csv` produces for an empty cell. -/
inductive Cell where
  | str (v : PyStr)
  | nan
deriving DecidableEq, Repr

/-- A labelled data-frame row: column name to cell. -/
abbrev DfRow := List (PyStr × Cell)

/-- A data frame: column names plus labelled rows. -/
structure Df where
  cols : List PyStr
  rows : List (Nat × DfRow)
deriving DecidableEq, Repr

/-- `row[col]` (in a well-formed frame the column is always present; a missing
key behaves like NaN here). -/
def rowGet (row : DfRow) (col : PyStr) : Cell :=
  match row.find? fun p => p.1 = col with
  | some p => p.2
  | none => Cell.nan

/-- The six required column names of `Dictionary.check`. -/
def requiredCols : List PyStr :=
  [pystr "Japanese", pystr "Kana", pystr "Division0", pystr "Division1",
   pystr "Type", pystr "Priority"]

/-- `int(cell)`: parse a string; `int(float('nan'))` raises `ValueError`. -/
def cellInt : Cell → Except PyErr Int
  | .str v => pyInt v
  | .nan => .error .valueError

/-- `all(Term.is_valid_transfer(s) for s in cells)` with Python's short-circuit:
the first string failing the check yields `False` before any later NaN cell can
raise; iterating a NaN (`len(origin_str)` on a float) raises `TypeError`. -/
def transferCheck : List Cell → Except PyErr Bool
  | [] => .ok true
  | .nan :: _ => .error .typeError
  | .str v :: rest => if is_valid_transfer v then transferCheck rest else .ok false

/-- A NaN Type cell compares unequal to every type label, which is
behaviourally identical to the unknown label "nan". -/
def cellTypeLabel : Cell → PyStr
  | .str v => v
  | .nan => pystr "nan"

/-- One `Term(row[...], ..., int(row["Priority"]))` call of `Dictionary.check`,
with Python's evaluation order: the `int` argument is evaluated before the
constructor body, and the constructor's transfer check walks jp, kana, div0,
div1 in order. -/
def termFromCells (jpC kanaC d0C d1C tyC priC : Cell) : Except PyErr Term := do
  let p ← cellInt priC
  let t ← transferCheck [jpC, kanaC, d0C, d1C]
  if !t then .error .valueError
  else
    match jpC, kanaC, d0C, d1C with
    | .str jp, .str kana, .str d0, .str d1 => mkTerm jp kana d0 d1 (cellTypeLabel tyC) p
    | _, _, _, _ => .error .typeError

/-- The `Term` construction attempted for one data-frame row. -/
def termFromRow (row : DfRow) : Except PyErr Term :=
  termFromCells (rowGet row (pystr "Japanese")) (rowGet row (pystr "Kana"))
    (rowGet row (pystr "Division0")) (rowGet row (pystr "Division1"))
    (rowGet row (pystr "Type")) (rowGet row (pystr "Priority"))

/-- Whether a row constructs. -/
def rowTermOk (row : DfRow) : Bool :=
  match termFromRow row with
  | .ok _ => true
  | .error _ => false

/-- The labels that `Dictionary.check` drops (one recorded diagnostic each):
rows whose `Term` construction raises `ValueError`; any other exception is
re-raised (`except Exception as e: raise e`). -/
def failingLabels : List (Nat × DfRow) → Except PyErr (List Nat)
  | [] => .ok []
  | (idx, row) :: rest =>
    match termFromRow row with
    | .ok _ => failingLabels rest
    | .error .valueError => do
      let r ← failingLabels rest
      .ok (idx :: r)
    | .error e => .error e

/-- `Dictionary.check`: raise `ValueError` when a required column is missing;
otherwise drop (by label, as `DataFrame.drop` does) every row whose re-validation
fails with `ValueError`, returning the kept frame and the recorded diagnostics'
labels. -/
def dicCheck (df : Df) : Except PyErr (Df × List Nat) :=
  if !(requiredCols.all fun c => df.cols.any fun c2 => c2 = c) then .error .valueError
  else do
    let bad ← failingLabels df.rows
    .ok (⟨df.cols, df.rows.filter fun r => !(bad.contains r.1)⟩, bad)

/-- A frame with all six columns whose single row has an empty (NaN) Japanese
cell — what `pd.read_csv` yields for the csv line `,とうきょう,0,0,名詞,1`. -/
def nanJpDf : Df :=
  ⟨requiredCols,
   [(0, [(pystr "Japanese", Cell.nan), (pystr "Kana", Cell.str (pystr "とうきょう")),
         (pystr "Division0", Cell.str (pystr "0")), (pystr "Division1", Cell.str (pystr "0")),
         (pystr "Type", Cell.str (pystr "名詞")), (pystr "Priority", Cell.str (pystr "1"))])]⟩

/-- A two-row all-string frame: one valid row, one row whose Japanese fails the
charset validation (dropped with a diagnostic). -/
def sampleDf : Df :=
  ⟨requiredCols,
   [(0, [(pystr "Japanese", Cell.str (pystr "東京")),
         (pystr "Kana", Cell.str (pystr "とうきょう")),
         (pystr "Division0", Cell.str (pystr "0")), (pystr "Division1", Cell.str (pystr "0")),
         (pystr "Type", Cell.str (pystr "名詞")), (pystr "Priority", Cell.str (pystr "1"))]),
    (1, [(pystr "Japanese", Cell.str (pystr "x")),
         (pystr "Kana", Cell.str (pystr "あ")),
         (pystr "Division0", Cell.str (pystr "0")), (pystr "Division1", Cell.str (pystr "0")),
         (pystr "Type", Cell.str (pystr "名詞")), (pystr "Priority", Cell.str (pystr "1"))])]⟩

/-- `str.join(sep, parts)`. -/
def pyJoin (sep : PyStr) : List PyStr → PyStr
  | [] => []
  | [x] => x
  | x :: rest => x ++ sep ++ pyJoin sep rest

/-- Regex AST for the construct subset that `Term.re_pattern`,
`Term.pre_to_token` and `Term.auto_divide` feed to `re.match`. -/
inductive Re where
  | eps
  | lit (c : Char)
  | dot
  | cls (neg : Bool) (cs : List Char)
  | seq (a b : Re)
  | alt (a b : Re)
  | star (a : Re)
  | plus (a : Re)
  | opt (a : Re)
  | grp (n : Nat) (a : Re)
  | bol
  | eol
deriving DecidableEq, Repr

/-- Collect the member characters of a `[...]` class (classes generated by this
code base contain plain characters only — no ranges). -/
def reParseCls : PyStr → Except PyErr (List Char × PyStr)
  | [] => .error .reError
  | ']' :: rest => .ok ([], rest)
  | '\\' :: c :: rest => do
    let (cs, s) ← reParseCls rest
    .ok (c :: cs, s)
  | ['\\'] => .error .reError
  | c :: rest => do
    let (cs, s) ← reParseCls rest
    .ok (c :: cs, s)

/-- Postfix quantifier after an atom; a trailing `?`/`+` modifier (lazy /
possessive) is accepted and treated as greedy — no pattern built by this code
base relies on the difference. A quantifier with no atom before it is the
`re.error` "nothing to repeat" raised in `reParseAtom`. -/
def reParseQuant (r : Re) (s : PyStr) : Re × PyStr :=
  match s with
  | '*' :: '?' :: rest => (.star r, rest)
  | '*' :: '+' :: rest => (.star r, rest)
  | '*' :: rest => (.star r, rest)
  | '+' :: '?' :: rest => (.plus r, rest)
  | '+' :: '+' :: rest => (.plus r, rest)
  | '+' :: rest => (.plus r, rest)
  | '?' :: '?' :: rest => (.opt r, rest)
  | '?' :: '+' :: rest => (.opt r, rest)
  | '?' :: rest => (.opt r, rest)
  | _ => (r, s)

/-- The three levels of the pattern grammar. -/
inductive PMode where
  | top
  | sq
  | atom
deriving DecidableEq, Repr

/-- Recursive-descent pattern parsing, one structural function over fuel so the
kernel can evaluate it.  `top` = alternation level, `sq` = concatenation level,
`atom` = one atom; a leading `*`, `+` or `?` at atom level is the compile-time
`re.error` "nothing to repeat". -/
def reParse : Nat → PMode → PyStr → Nat → Except PyErr (Re × PyStr × Nat)
  | 0, _, _, _ => .error .fuelExhausted
  | fu + 1, .top, s, gn => do
    let (r1, s1, gn1) ← reParse fu .sq s gn
    match s1 with
    | '|' :: rest => do
      let (r2, s2, gn2) ← reParse fu .top rest gn1
      .ok (.alt r1 r2, s2, gn2)
    | _ => .ok (r1, s1, gn1)
  | fu + 1, .sq, s, gn =>
    match s with
    | [] => .ok (.eps, [], gn)
    | ')' :: _ => .ok (.eps, s, gn)
    | '|' :: _ => .ok (.eps, s, gn)
    | _ => do
      let (r1, s1, gn1) ← reParse fu .atom s gn
      let (r1q, s2) := reParseQuant r1 s1
      let (r2, s3, gn2) ← reParse fu .sq s2 gn1
      .ok (.seq r1q r2, s3, gn2)
  | fu + 1, .atom, s, gn =>
    match s with
    | [] => .error .reError
    | '(' :: '?' :: ':' :: rest => do
      let (r, s1, gn1) ← reParse fu .top rest gn
      match s1 with
      | ')' :: rest2 => .ok (r, rest2, gn1)
      | _ => .error .reError
    | '(' :: rest => do
      let (r, s1, gn1) ← reParse fu .top rest (gn + 1)
      match s1 with
      | ')' :: rest2 => .ok (.grp gn r, rest2, gn1)
      | _ => .error .reError
    | '[' :: '^' :: rest => do
      let (cs, s1) ← reParseCls rest
      .ok (.cls true cs, s1, gn)
    | '[' :: rest => do
      let (cs, s1) ← reParseCls rest
      .ok (.cls false cs, s1, gn)
    | '\\' :: c :: rest => .ok (.lit c, rest, gn)
    | ['\\'] => .error .reError
    | '^' :: rest => .ok (.bol, rest, gn)
    | '$' :: rest => .ok (.eol, rest, gn)
    | '.' :: rest => .ok (.dot, rest, gn)
    | '*' :: _ => .error .reError
    | '+' :: _ => .error .reError
    | '?' :: _ => .error .reError
    | c :: rest => .ok (.lit c, rest, gn)

/-- `re.compile`: parse the whole pattern (group numbers start at 1). -/
def reCompile (p : PyStr) : Except PyErr Re := do
  let (r, rest, _) ← reParse (4 * p.length + 8) .top p 1
  if rest ≠ [] then .error .reError else .ok r

/-- All matches of `r` against the suffix `s` of `full`, as
`(remaining suffix, captures)` pairs in Python's backtracking priority order
(first element = the match `re` commits to).  Captures are `(group number,
captured text)`, most recent first.  `star` requires progress per iteration and
spends fuel, modelling Python's empty-match rule and guaranteeing totality. -/
def reMatches : Nat → Re → PyStr → PyStr → List (Nat × PyStr) →
    Except PyErr (List (PyStr × List (Nat × PyStr)))
  | 0, _, _, _, _ => .error .fuelExhausted
  | _ + 1, .eps, _, s, caps => .ok [(s, caps)]
  | _ + 1, .lit c, _, s, caps =>
    match s with
    | c2 :: rest => if c2 = c then .ok [(rest, caps)] else .ok []
    | [] => .ok []
  | _ + 1, .dot, _, s, caps =>
    match s with
    | c :: rest => if c ≠ '\n' then .ok [(rest, caps)] else .ok []
    | [] => .ok []
  | _ + 1, .cls neg cs, _, s, caps =>
    match s with
    | c :: rest => if cs.contains c ≠ neg then .ok [(rest, caps)] else .ok []
    | [] => .ok []
  | fu + 1, .seq a b, full, s, caps => do
    let ra ← reMatches fu a full s caps
    let rss ← ra.mapM fun p => reMatches fu b full p.1 p.2
    .ok rss.flatten
  | fu + 1, .alt a b, full, s, caps => do
    let ra ← reMatches fu a full s caps
    let rb ← reMatches fu b full s caps
    .ok (ra ++ rb)
  | fu + 1, .star a, full, s, caps => do
    let ra ← reMatches fu a full s caps
    let raProg := ra.filter fun p => p.1.length < s.length
    let rss ← raProg.mapM fun p => reMatches fu (.star a) full p.1 p.2
    .ok (rss.flatten ++ [(s, caps)])
  | fu + 1, .plus a, full, s, caps => do
    let ra ← reMatches fu a full s caps
    let rss ← ra.mapM fun p => reMatches fu (.star a) full p.1 p.2
    .ok rss.flatten
  | fu + 1, .opt a, full, s, caps => do
    let ra ← reMatches fu a full s caps
    .ok (ra ++ [(s, caps)])
  | fu + 1, .grp n a, full, s, caps => do
    let ra ← reMatches fu a full s caps
    .ok (ra.map fun p => (p.1, (n, s.take (s.length - p.1.length)) :: p.2))
  | _ + 1, .bol, full, s, caps =>
    if s.length = full.length then .ok [(s, caps)] else .ok []
  | _ + 1, .eol, _, s, caps =>
    if s = [] ∨ s = ['\n'] then .ok [(s, caps)] else .ok []

/-- `re.match(p, s)`: compile, then take the first match at position 0.  The
fuel bounds the backtracking depth, which for the patterns built by this code
base is at most the pattern size per consumed character. -/
def reMatch (p s : PyStr) : Except PyErr (Option (List (Nat × PyStr))) := do
  let r ← reCompile p
  let ms ← reMatches ((p.length + 2) * (s.length + 2) + 8) r s s []
  match ms with
  | [] => .ok none
  | m :: _ => .ok (some m.2)

/-- `match.group(n)`. -/
def reGroup (caps : List (Nat × PyStr)) (n : Nat) : Option PyStr :=
  (caps.find? fun p => p.1 = n).map Prod.snd

/-- `match.lastindex`: the highest-numbered matched capturing group. -/
def reLastIndex (caps : List (Nat × PyStr)) : Option Nat :=
  match caps with
  | [] => none
  | _ => some (caps.foldl (fun a p => max a p.1) 0)

/-- The characters escaped by the 固有 branches of `re_pattern` and
`pre_to_token`.  The sequential `str.replace` chain of the source (backslash
first) is equivalent to this character-wise escape. -/
def reMetaChars : List Char :=
  ['\\', '$', '(', ')', '*', '?', '+', '.', '[', ']',
   Char.ofNat 123, Char.ofNat 125, '|', '^']

/-- Escape the structurally significant pattern characters. -/
def escRe (s : PyStr) : PyStr :=
  s.flatMap fun c => if reMetaChars.contains c then ['\\', c] else [c]

/-- The 五段 `gobi_dic` of `re_pattern`; a missing key is Python's `KeyError`. -/
def gobi_dic (g : PyStr) : Except PyErr (List PyStr) :=
  if g = pystr "う" then .ok [pystr "わ", pystr "い", pystr "う", pystr "え", pystr "お", pystr "っ"]
  else if g = pystr "く" then .ok [pystr "か", pystr "き", pystr "く", pystr "け", pystr "こ", pystr "い"]
  else if g = pystr "ぐ" then .ok [pystr "が", pystr "ぎ", pystr "ぐ", pystr "げ", pystr "ご", pystr "い"]
  else if g = pystr "す" then .ok [pystr "さ", pystr "し", pystr "す", pystr "せ", pystr "そ"]
  else if g = pystr "つ" then .ok [pystr "た", pystr "ち", pystr "つ", pystr "て", pystr "と", pystr "っ"]
  else if g = pystr "ぬ" then .ok [pystr "な", pystr "に", pystr "ぬ", pystr "ね", pystr "の", pystr "ん"]
  else if g = pystr "ぶ" then .ok [pystr "ば", pystr "び", pystr "ぶ", pystr "べ", pystr "ぼ", pystr "ん"]
  else if g = pystr "む" then .ok [pystr "ま", pystr "み", pystr "む", pystr "め", pystr "も", pystr "ん"]
  else if g = pystr "る" then .ok [pystr "ら", pystr "り", pystr "る", pystr "れ", pystr "ろ", pystr "っ"]
  else .error .keyError

/-- The case-insensitive character-class sequence of the 英語 branch. -/
def enClasses (s : PyStr) : PyStr :=
  s.flatMap fun c => ['['] ++ [c.toLower] ++ [c.toUpper] ++ [']']

/-- The fixed カ変 alternation of `re_pattern`. -/
def kahenAlternatives : List PyStr :=
  [pystr "来る", pystr "来ない", pystr "来なく", pystr "来なかっ", pystr "来なければ",
   pystr "来なさ", pystr "来た", pystr "来て", pystr "来られ", pystr "来い", pystr "来よ"]

/-- The 形容 gobi list of `re_pattern`. -/
def keiyouGobi : List PyStr :=
  [pystr "い", pystr "く", pystr "かっ", pystr "ければ", pystr "がる", pystr "がり",
   pystr "がら", pystr "がれ", pystr "がろ", pystr "さ", pystr "げ", pystr "そう",
   pystr "さそう", pystr "すぎ", pystr "過ぎ"]

/-- `Term.re_pattern`: build the per-type matching template string. -/
def re_pattern (t : Term) : Except PyErr PyStr :=
  if t.term_type = pystr "名詞" then
    .ok (pystr "^(" ++ remove_seps t.jp ++ pystr ")(.*)$")
  else if t.term_type = pystr "固有" then
    .ok (pystr "^(" ++ escRe (remove_seps t.jp) ++ pystr ")(.*)$")
  else if t.term_type = pystr "五段" then do
    let g ← get_gobi t.jp
    let alts ← gobi_dic g
    .ok (pystr "^(" ++ remove_seps (remove_gobi t.jp) ++ pystr "(?:" ++
      pyJoin (pystr "|") alts ++ pystr "))(.*)$")
  else if t.term_type = pystr "上下" || t.term_type = pystr "サ変" then
    .ok (pystr "^(" ++ remove_seps (remove_gobi t.jp) ++ pystr ")(.*)$")
  else if t.term_type = pystr "カ変" then
    .ok (pystr "^(" ++ pyJoin (pystr "|") kahenAlternatives ++ pystr ")(.*)$")
  else if t.term_type = pystr "形容" then
    .ok (pystr "^(" ++ remove_seps (remove_gobi t.jp) ++ pystr "(?:" ++
      pyJoin (pystr "|") keiyouGobi ++ pystr "))(.*)$")
  else if t.term_type = pystr "英語" then
    .ok (pystr "^(" ++ enClasses t.jp ++ pystr ")(.*)$")
  else .error .valueError

/-- The valid noun term whose spelling starts with `+`. -/
def plusTerm : Term := ⟨pystr "+1", pystr "ぷ", pystr "0", pystr "0", pystr "名詞", 0⟩

/-- The `kahen_dic` table of `Term.kahen_to_token`, in insertion order. -/
def kahen_dic : List (PyStr × PyStr) :=
  [(pystr "来る", pystr "くる"), (pystr "来ない", pystr "こない"),
   (pystr "来なく", pystr "こなく"), (pystr "来なかっ", pystr "こなかっ"),
   (pystr "来なければ", pystr "こなければ"), (pystr "来なさ", pystr "きなさい"),
   (pystr "来た", pystr "きた"), (pystr "来て", pystr "きて"),
   (pystr "来られ", pystr "こられ"), (pystr "来い", pystr "こい"),
   (pystr "来よ", pystr "こよ")]

/-- `Term.kahen_to_token`: first table entry whose key prefixes the text. -/
def kahen_find : List (PyStr × PyStr) → PyStr →
    Except PyErr (List PyStr × List PyStr × List PyStr × PyStr)
  | [], _ => .error .valueError
  | (key, value) :: rest, origin =>
    if key.isPrefixOf origin then
      .ok ([pystr "来", key.drop 1], [value.take 1, value.drop 1],
        [pystr "0", pystr "-1"], origin.drop key.length)
    else kahen_find rest origin

/-- `Term.pre_to_token` for `div_type` 0, 1 or 2 (1 and 2 both use `div1` and
the `\` separator). -/
def pre_to_token (t : Term) (origin : PyStr) (dt : Nat) :
    Except PyErr (List PyStr × List PyStr × List PyStr × PyStr) :=
  if t.term_type = pystr "カ変" then kahen_find kahen_dic origin
  else
    let dc : Char := if dt = 0 then '/' else '\\'
    let needless : Char := if dt = 0 then '\\' else '/'
    let dv := if dt = 0 then t.div0 else t.div1
    let jp := div_remove t.jp needless
    let kana := div_remove t.kana needless
    let division := div_remove dv needless
    let jp_gokan := remove_gobi jp
    let kana_gokan := remove_gobi kana
    let div_gokan := remove_gobi division
    let patt : PyStr :=
      if t.term_type = pystr "英語" then
        pystr "^(" ++ enClasses jp_gokan ++ pystr ")(.*)$"
      else if t.term_type = pystr "固有" then
        pystr "^(" ++ escRe (remove_seps jp_gokan) ++ pystr ")(.*)$"
      else
        pystr "^(" ++ remove_seps jp_gokan ++ pystr ")\\*?(.*)$"
    do
      let m ← reMatch patt origin
      match m with
      | none => .error .valueError
      | some caps =>
        let leftover := (reGroup caps 2).getD []
        let jp_list :=
          if t.term_type ≠ pystr "英語" then div_split jp_gokan dc
          else div_split ((reGroup caps 1).getD []) dc
        .ok (jp_list, div_split kana_gokan dc, div_split div_gokan dc, leftover)

/-- Output token of shape A (`Token0`). -/
structure Token0 where
  jp : PyStr
  kana : Option PyStr
  alignment : Int
deriving DecidableEq, Repr

/-- `Token0(jp)` with the default annotations. -/
def mkToken0 (jp : PyStr) : Token0 := ⟨jp, none, 0⟩

/-- Output token of shape B (`Token1`). -/
structure Token1 where
  jp : PyStr
  up_kana : Option PyStr
  down_kana : Option PyStr
deriving DecidableEq, Repr

/-- Output token of shape C (`Token2`). -/
structure Token2 where
  jp : PyStr
  kana : Option PyStr
  is_skip : Bool
deriving DecidableEq, Repr

/-- The loop of `Term.to_token0`.  `kana_list[i]` is only read in the annotated
branch, so a positionally missing reading slot errors exactly when Python's
index access does; an exhausted `div_list` is an `IndexError` either way. -/
def tok0Go : List PyStr → List PyStr → List PyStr → Except PyErr (List Token0)
  | [], _, _ => .ok []
  | _ :: _, _, [] => .error .indexError
  | jpe :: jrest, kana_list, de :: drest => do
    let dn ← pyInt de
    if dn = 0 || dn = 1 || dn = 2 then
      match kana_list with
      | [] => .error .indexError
      | ke :: krest => do
        let toks ← tok0Go jrest krest drest
        .ok (⟨remove_seps jpe, some (remove_seps ke), dn⟩ :: toks)
    else do
      let toks ← tok0Go jrest kana_list.tail drest
      .ok (mkToken0 (remove_seps jpe) :: toks)

/-- `Term.to_token0`. -/
def to_token0 (t : Term) (origin : PyStr) : Except PyErr (List Token0) := do
  let (jp_list, kana_list, div_list, leftover) ← pre_to_token t origin 0
  let toks ← tok0Go jp_list kana_list div_list
  .ok (toks ++ if leftover.length > 0 then [mkToken0 (remove_seps leftover)] else [])

/-- The merging loop of `Term.to_token1`: adjacent pairs of 0-aligned slots
become one dual-reading token. -/
def tok1Go : List PyStr → List PyStr → List PyStr → Except PyErr (List Token1)
  | [], _, _ => .ok []
  | _ :: _, _, [] => .error .indexError
  | jpe :: jrest, kana_list, de :: drest => do
    let dn ← pyInt de
    if dn = 0 then
      match jrest with
      | jpe2 :: jrest2 =>
        match drest with
        | [] => .error .indexError
        | de2 :: drest2 => do
          let dn2 ← pyInt de2
          if dn2 = 0 then
            match kana_list with
            | ke :: ke2 :: krest2 => do
              let toks ← tok1Go jrest2 krest2 drest2
              .ok (⟨remove_seps (jpe ++ jpe2), some (remove_seps ke),
                some (remove_seps ke2)⟩ :: toks)
            | _ => .error .indexError
          else
            match kana_list with
            | [] => .error .indexError
            | ke :: krest => do
              let toks ← tok1Go (jpe2 :: jrest2) krest (de2 :: drest2)
              .ok (⟨remove_seps jpe, some (remove_seps ke), none⟩ :: toks)
      | [] =>
        match kana_list with
        | [] => .error .indexError
        | ke :: krest => do
          let toks ← tok1Go [] krest drest
          .ok (⟨remove_seps jpe, some (remove_seps ke), none⟩ :: toks)
    else do
      let toks ← tok1Go jrest kana_list.tail drest
      .ok (⟨remove_seps jpe, none, none⟩ :: toks)

/-- `Term.to_token1`. -/
def to_token1 (t : Term) (origin : PyStr) : Except PyErr (List Token1) := do
  let (jp_list, kana_list, div_list, leftover) ← pre_to_token t origin 1
  let toks ← tok1Go jp_list kana_list div_list
  .ok (toks ++ if leftover.length > 0 then [⟨remove_seps leftover, none, none⟩] else [])

/-- Emit the pending run of `Term.to_token2` (nothing if it is empty). -/
def tok2Flush (cur_jp cur_kana : PyStr) (cur_div : Int) : List Token2 :=
  if cur_jp.length ≠ 0 then
    [if cur_div = 0 then ⟨remove_seps cur_jp, some (remove_seps cur_kana), false⟩
     else ⟨remove_seps cur_jp, none, false⟩]
  else []

/-- The merging loop of `Term.to_token2`: consecutive slots with the same
alignment digit fuse into one token (the initial pending run is empty with
digit 0). -/
def tok2Go : List PyStr → List PyStr → List PyStr → PyStr → PyStr → Int →
    Except PyErr (List Token2)
  | [], _, _, cur_jp, cur_kana, cur_div => .ok (tok2Flush cur_jp cur_kana cur_div)
  | _ :: _, _, [], _, _, _ => .error .indexError
  | jpe :: jrest, kana_list, de :: drest, cur_jp, cur_kana, cur_div => do
    let dn ← pyInt de
    match kana_list with
    | [] => .error .indexError
    | ke :: krest =>
      if dn ≠ cur_div then do
        let toks ← tok2Go jrest krest drest jpe ke dn
        .ok (tok2Flush cur_jp cur_kana cur_div ++ toks)
      else
        tok2Go jrest krest drest (cur_jp ++ jpe) (cur_kana ++ ke) cur_div

/-- `Term.to_token2`. -/
def to_token2 (t : Term) (origin : PyStr) : Except PyErr (List Token2) := do
  let (jp_list, kana_list, div_list, leftover) ← pre_to_token t origin 2
  let toks ← tok2Go jp_list kana_list div_list [] [] 0
  .ok (toks ++ if leftover.length > 0 then [⟨remove_seps leftover, none, false⟩] else [])

/-- The filter of `search_to_token*`: spelling starts (case-insensitively) with
the line's first character and the priority matches. -/
def filterRows (dic : List DicRow) (init : Char) (pri : Int) : List DicRow :=
  dic.filter fun r => (pyLower [init]).isPrefixOf (pyLower r.jp) && r.pri == pri

/-- The sort key of `search_to_token*`: full spelling length descending, stem
length descending, priority ascending.  (`pandas.sort_values` uses an unstable
quicksort; a stable insertion sort realizes the same key ordering, and every
concrete evaluation below sorts lists without key ties.) -/
def rowKeyLE (a b : DicRow) : Bool :=
  let la := (remove_seps a.jp).length
  let lb := (remove_seps b.jp).length
  if la ≠ lb then decide (lb < la)
  else
    let ga := (remove_seps (remove_gobi a.jp)).length
    let gb := (remove_seps (remove_gobi b.jp)).length
    if ga ≠ gb then decide (gb < ga)
    else decide (a.pri ≤ b.pri)

/-- Insertion into a sorted row list. -/
def insertSorted (r : DicRow) : List DicRow → List DicRow
  | [] => [r]
  | x :: rest => if rowKeyLE x r then x :: insertSorted r rest else r :: x :: rest

/-- Stable insertion sort by `rowKeyLE`. -/
def sortRows : List DicRow → List DicRow
  | [] => []
  | r :: rest => insertSorted r (sortRows rest)

/-- Filter-and-sort stage of `search_to_token*`; `line[0]` on an empty line is
the `IndexError` of the source. -/
def search_rows (dic : List DicRow) (line : PyStr) (pri : Int) :
    Except PyErr (List DicRow) :=
  match line with
  | [] => .error .indexError
  | init :: _ => .ok (sortRows (filterRows dic init pri))

/-- The candidate loop shared by the three `search_to_token*` methods,
parameterized by the shape-specific decomposition: re-construct the `Term`
(exceptions propagate), build its template, try `re.match`; on the first hit
decompose `group(1)` and return `group(2)` as the remaining line. -/
def searchGo {α : Type} (decomp : Term → PyStr → Except PyErr (List α)) (line : PyStr) :
    List DicRow → Except PyErr (Bool × Option (List α) × PyStr)
  | [] => .ok (false, none, line)
  | r :: rest => do
    let term ← mkTerm r.jp r.kana r.div0 r.div1 r.term_type r.pri
    let patt ← re_pattern term
    let m ← reMatch patt line
    match m with
    | none => searchGo decomp line rest
    | some caps => do
      let toks ← decomp term ((reGroup caps 1).getD [])
      .ok (true, some toks, (reGroup caps 2).getD [])

/-- `Dictionary.search_to_token0`. -/
def search_to_token0 (dic : List DicRow) (line : PyStr) (pri : Int) :
    Except PyErr (Bool × Option (List Token0) × PyStr) := do
  let rows ← search_rows dic line pri
  searchGo to_token0 line rows

/-- `Dictionary.search_to_token1`. -/
def search_to_token1 (dic : List DicRow) (line : PyStr) (pri : Int) :
    Except PyErr (Bool × Option (List Token1) × PyStr) := do
  let rows ← search_rows dic line pri
  searchGo to_token1 line rows

/-- `Dictionary.search_to_token2`. -/
def search_to_token2 (dic : List DicRow) (line : PyStr) (pri : Int) :
    Except PyErr (Bool × Option (List Token2) × PyStr) := do
  let rows ← search_rows dic line pri
  searchGo to_token2 line rows

/-- The priority directive pattern `^\[(\d+)\](.*)`: digits between brackets;
the unanchored trailing `(.*)` stops at a newline, so anything past a newline
is dropped from the remaining line, as in the source. -/
def matchPriorityPat (s : PyStr) : Option (Nat × PyStr) :=
  match s with
  | '[' :: rest =>
    let ds := rest.takeWhile Char.isDigit
    let rest2 := rest.drop ds.length
    if ds ≠ [] then
      match rest2 with
      | ']' :: rest3 => some (digitsToNat ds, rest3.takeWhile (· ≠ '\n'))
      | _ => none
    else none
  | _ => none

/-- One lazy `([^;\)]+?)` segment followed by its terminator: the non-empty run
of characters other than `;` and `)` up to the first occurrence of either,
which must be the expected terminator. -/
def customSeg (stop : Char) (s : PyStr) : Option (PyStr × PyStr) :=
  let seg := s.takeWhile fun c => c ≠ ';' && c ≠ ')'
  let rest := s.drop seg.length
  if seg ≠ [] then
    match rest with
    | c :: rest2 => if c = stop then some (seg, rest2) else none
    | [] => none
  else none

/-- The inline-quadruple pattern `^\(([^;\)]+?);([^;\)]+?);([^;\)]+?);([^;\)]+?)\)(.*)`. -/
def matchCustomPat (s : PyStr) : Option (PyStr × PyStr × PyStr × PyStr × PyStr) :=
  match s with
  | '(' :: rest => do
    let (a1, r1) ← customSeg ';' rest
    let (a2, r2) ← customSeg ';' r1
    let (a3, r3) ← customSeg ';' r2
    let (a4, r4) ← customSeg ')' r3
    some (a1, a2, a3, a4, r4.takeWhile (· ≠ '\n'))
  | _ => none

/-- One iteration of the `line_to_tokens*` scan loop, shared by the three
shapes: returns the tokens spliced in by this iteration and the new remaining
line.  `search` is the shape's dictionary search, `decomp` its decomposition
(for the inline-quadruple branch, whose failures fall through to the search on
`group(5)`), `pass` its single-character pass-through token and `spanTok` its
`$`-span token. -/
def tokStep {α : Type} (search : PyStr → Int → Except PyErr (Bool × Option (List α) × PyStr))
    (decomp : Term → PyStr → Except PyErr (List α))
    (pass : Char → α) (spanTok : Char → α) (rem : PyStr) :
    Except PyErr (List α × PyStr) :=
  let afterSearch : PyStr → Int → Except PyErr (List α × PyStr) := fun l pri => do
    let (found, ntoks, rest) ← search l pri
    if found then .ok (ntoks.getD [], rest)
    else
      match rest with
      | [] => .error .indexError
      | c :: r2 => .ok ([pass c], r2)
  let first2 := rem.take 2
  if first2 = pystr "$$" || first2 = pystr "((" || first2 = pystr "))" ||
      first2 = pystr "[[" || first2 = pystr "]]" then
    afterSearch (rem.drop 1) 0
  else
    match matchCustomPat rem with
    | some (a1, a2, a3, a4, rest) =>
      match (do
        let term ← mkTerm a1 a2 a3 a4 (pystr "固有") 0
        decomp term (remove_seps term.jp)) with
      | .ok tks => .ok (tks, rest)
      | .error _ => afterSearch rest 0
    | none =>
      match matchPriorityPat rem with
      | some (n, rest) => afterSearch rest (Int.ofNat n)
      | none =>
        match rem with
        | '$' :: rest =>
          let span := rest.takeWhile (· ≠ '$')
          let rest2 := rest.drop span.length
          let rest3 := match rest2 with
            | '$' :: r => r
            | _ => rest2
          .ok (span.map spanTok, rest3)
        | _ => afterSearch rem 0

/-- The fuelled scan loop shared by `line_to_tokens0/1/2`. -/
def lineGo {α : Type} (step : PyStr → Except PyErr (List α × PyStr)) :
    Nat → PyStr → Except PyErr (List α)
  | 0, _ => .error .fuelExhausted
  | fu + 1, rem =>
    if rem.length = 0 then .ok []
    else do
      let (emitted, newRem) ← step rem
      let toks ← lineGo step fu newRem
      .ok (emitted ++ toks)

/-- `Dictionary.line_to_tokens0`.  Fuel `line.length + 1` covers every scan in
which each iteration consumes at least one character; a crafted dictionary row
whose template matches without consuming anything makes the Python loop run
forever, which this model reports as `fuelExhausted`. -/
def line_to_tokens0 (dic : List DicRow) (line : PyStr) : Except PyErr (List Token0) :=
  lineGo (tokStep (search_to_token0 dic) to_token0 (fun c => mkToken0 [c])
    (fun c => mkToken0 [c])) (line.length + 1) line

/-- `Dictionary.line_to_tokens1`. -/
def line_to_tokens1 (dic : List DicRow) (line : PyStr) : Except PyErr (List Token1) :=
  lineGo (tokStep (search_to_token1 dic) to_token1 (fun c => ⟨[c], none, none⟩)
    (fun c => ⟨[c], none, none⟩)) (line.length + 1) line

/-- `Dictionary.line_to_tokens2` (its `$`-span tokens carry the skip flag). -/
def line_to_tokens2 (dic : List DicRow) (line : PyStr) : Except PyErr (List Token2) :=
  lineGo (tokStep (search_to_token2 dic) to_token2 (fun c => ⟨[c], none, false⟩)
    (fun c => ⟨[c], none, true⟩)) (line.length + 1) line

/-- The stored row of `tokyoTerm` (priority 1). -/
def tokyoRow : DicRow := tokyoTerm.to_dict

/-- A candidate quadruple of `auto_divide`:
(spelling, reading, division0, division1). -/
abbrev Quad := PyStr × PyStr × PyStr × PyStr

/-- Inner recursion of `generate_insertions` for a non-empty item list
(structured so both recursions are structural and kernel-reducible). -/
def giGo (x : PyStr) (xs : List PyStr) (fill : PyStr)
    (rest : Nat → List (List PyStr)) : Nat → List (List PyStr)
  | 0 => [x :: xs]
  | d + 1 => ((giGo x xs fill rest d).map (fill :: ·)) ++ ((rest (d + 1)).map (x :: ·))

/-- `Term.generate_insertions`: every interleaving of the items with
`fill_count` copies of `fill`, in `itertools.combinations` order (fill
positions lexicographically ascending, i.e. fill-first). -/
def generate_insertions : List PyStr → PyStr → Nat → List (List PyStr)
  | [], fill => fun d => [List.replicate d fill]
  | x :: xs, fill => giGo x xs fill (generate_insertions xs fill)

/-- `"".join(itertools.chain.from_iterable(itertools.zip_longest(chars, seps,
fillvalue="")))`. -/
def zipLongestJoin : PyStr → List PyStr → PyStr
  | [], ss => ss.flatten
  | c :: cs, [] => c :: zipLongestJoin cs []
  | c :: cs, s :: ss => c :: (s ++ zipLongestJoin cs ss)

/-- `s.replace(x, "")` for a single character (no lookbehind here). -/
def removeChar (s : PyStr) (x : Char) : PyStr := s.filter (· ≠ x)

/-- Helper for `splitChar`. -/
def splitCharGo (x : Char) : PyStr → PyStr → List PyStr
  | cur, [] => [cur.reverse]
  | cur, c :: rest =>
    if c = x then cur.reverse :: splitCharGo x [] rest
    else splitCharGo x (c :: cur) rest

/-- Plain `str.split(x)` on a single character (keeps empty fields). -/
def splitChar (s : PyStr) (x : Char) : List PyStr := splitCharGo x [] s

/-- One candidate built for one reading distribution (`kana_combo`): derive the
scheme-0 digits from relative slot lengths and set every scheme-1 digit to "0".
The `return []` taken on a slot-count mismatch aborts the whole `auto_divide`
call; it is the distinguished error `earlyEmptyReturn` here and is turned back
into the empty result at top level. -/
def mkCand (jpGokan kanaGokan jpChoice : PyStr) (kanaCombo : List PyStr) :
    Except PyErr Quad :=
  let kanaChoice := zipLongestJoin kanaGokan kanaCombo
  let jpDiv0 := splitChar (removeChar jpChoice '\\') '/'
  let kanaDiv0 := splitChar (removeChar kanaChoice '\\') '/'
  if jpDiv0.length ≠ kanaDiv0.length then .error .earlyEmptyReturn
  else
    let div0List := (jpDiv0.zip kanaDiv0).map fun p =>
      if p.1.length = 1 then pystr "0"
      else if p.2.length ≤ p.1.length then pystr "2"
      else pystr "1"
    let div0Choice := pyJoin (pystr "/") div0List
    let jpDiv1 := splitChar (removeChar jpChoice '/') '\\'
    let div1Choice := pyJoin (pystr "\\") (List.replicate jpDiv1.length (pystr "0"))
    .ok (jpChoice, kanaChoice, div0Choice, div1Choice)

/-- The `for kana_combo in ...: choices.append(...)` inner loop: one candidate
per reading distribution, the first failure aborting. -/
def mapCands (f : List PyStr → Except PyErr Quad) : List (List PyStr) →
    Except PyErr (List Quad)
  | [] => .ok []
  | kc :: rest => do
    let q ← f kc
    let qs ← mapCands f rest
    .ok (q :: qs)

/-- The `for combo in itertools.product(["/", "/\\", ""], repeat=repeat)` loop
of one non-kana run: the 2000 cap is checked at each combination boundary (and
only there); combinations with two scheme-1 boundaries are skipped; a reading
shorter than the spelling contributes the single `("1", "0")` candidate;
otherwise one candidate is appended per reading distribution. -/
def goCombos (jpGokan kanaGokan : PyStr) : List (List PyStr) → List Quad →
    Except PyErr (List Quad)
  | [], choices => .ok choices
  | combo :: rest, choices =>
    if 2000 ≤ choices.length then .error .overflowError
    else if 1 < combo.count (pystr "/\\") then goCombos jpGokan kanaGokan rest choices
    else
      let jpChoice := zipLongestJoin jpGokan combo
      if kanaGokan.length < jpGokan.length then
        goCombos jpGokan kanaGokan rest
          (choices ++ [(jpGokan, kanaGokan, pystr "1", pystr "0")])
      else do
        let news ← mapCands (mkCand jpGokan kanaGokan jpChoice)
          (generate_insertions combo (pystr "") (kanaGokan.length - jpGokan.length))
        goCombos jpGokan kanaGokan rest (choices ++ news)

/-- `itertools.product(options, repeat=n)`, leftmost position varying slowest. -/
def pyProductR (options : List PyStr) : Nat → List (List PyStr)
  | 0 => [[]]
  | n + 1 => options.flatMap fun x => (pyProductR options n).map (x :: ·)

/-- The candidate generation for one non-kana run. -/
def kanjiRunChoices (jpGokan kanaGokan : PyStr) : Except PyErr (List Quad) :=
  let rep := min (jpGokan.length - 1) (kanaGokan.length - 1)
  if rep = 0 then .ok [(jpGokan, kanaGokan, pystr "0", pystr "0")]
  else goCombos jpGokan kanaGokan (pyProductR [pystr "/", pystr "/\\", pystr ""] rep) []

/-- The maximal same-script run partition of the stem (`jp_gokan_list`). -/
def buildRunsGo (cur : PyStr) (flag : Bool) : PyStr → List (PyStr × Bool)
  | [] => [(cur, flag)]
  | c :: rest =>
    if is_kana c = flag then buildRunsGo (cur ++ [c]) flag rest
    else (cur, flag) :: buildRunsGo [c] (is_kana c) rest

/-- The run-split pattern of `auto_divide`: a literal group per kana run, a
`(.+)` group per non-kana run. -/
def runPattern (runs : List (PyStr × Bool)) : PyStr :=
  pystr "^" ++
    (runs.map fun r =>
      if r.2 then pystr "(" ++ r.1 ++ pystr ")" else pystr "(.+)").flatten ++
    pystr "$"

/-- `[result.group(i) for i in range(1, lastindex + 1)]`. -/
def groupsUpTo (caps : List (Nat × PyStr)) (n : Nat) : List PyStr :=
  (List.range n).map fun i => (reGroup caps (i + 1)).getD []

/-- Per-run candidate lists (`part_list` before deduplication): kana runs
contribute the single self-reading `("-1", "-1")` entry, non-kana runs their
searched candidate lists; a missing reading slice is the `IndexError` of the source's
indexed access. -/
def partsFor : List (PyStr × Bool) → List PyStr → Except PyErr (List (List Quad))
  | [], _ => .ok []
  | (run, flag) :: rs, gokans =>
    match gokans with
    | [] => .error .indexError
    | g :: gs =>
      if flag then do
        let parts ← partsFor rs gs
        .ok ([(run, g, pystr "-1", pystr "-1")] :: parts)
      else do
        let choices ← kanjiRunChoices run g
        let parts ← partsFor rs gs
        .ok (choices :: parts)

/-- `list(dict.fromkeys(part))`: keep first occurrences, in order. -/
def dedupGo (seen : List Quad) : List Quad → List Quad
  | [] => []
  | q :: rest =>
    if seen.contains q then dedupGo seen rest
    else q :: dedupGo (seen ++ [q]) rest

/-- Per-run deduplication. -/
def dedup (l : List Quad) : List Quad := dedupGo [] l

/-- `itertools.product(*part_list)`. -/
def pyProductL : List (List Quad) → List (List Quad)
  | [] => [[]]
  | p :: ps => p.flatMap fun x => (pyProductL ps).map (x :: ·)

/-- Re-serialize one cross-run combination into a quadruple, appending the
`*`-separated ending when the type stripped one. -/
def assembleQuad (gobi : Option (PyStr × PyStr)) (combo : List Quad) : Quad :=
  let jpR := pyJoin (pystr "/\\") (combo.map fun q => q.1)
  let kanaR := pyJoin (pystr "/\\") (combo.map fun q => q.2.1)
  let d0R := pyJoin (pystr "/") (combo.map fun q => q.2.2.1)
  let d1R := pyJoin (pystr "\\") (combo.map fun q => q.2.2.2)
  match gobi with
  | some (gj, gk) =>
    (jpR ++ '*' :: gj, kanaR ++ '*' :: gk, d0R ++ pystr "*-1", d1R ++ pystr "*-1")
  | none => (jpR, kanaR, d0R, d1R)

/-- `s[-n:]`. -/
def pyLastN (s : PyStr) (n : Nat) : PyStr := s.drop (s.length - n)

/-- The run-partition / run-matching / cartesian-product tail of `auto_divide`
shared by every type that reaches it: `jp0`/`kana0` are the ending-stripped
stems and `gobi` the stripped ending pair, if any. -/
def auto_divide_tail (jp0 kana0 : PyStr) (gobi : Option (PyStr × PyStr)) :
    Except PyErr (Option (List Quad)) :=
  match jp0 with
  | [] => .error .indexError
  | c0 :: rest => do
    let runs := buildRunsGo [c0] (is_kana c0) rest
    let m ← reMatch (runPattern runs) kana0
    match m with
    | none => .ok none
    | some caps =>
      match reLastIndex caps with
      | none => .ok none
      | some li =>
        match partsFor runs (groupsUpTo caps li) with
        | .error .earlyEmptyReturn => .ok (some [])
        | .error e => .error e
        | .ok parts =>
          .ok (some ((pyProductL (parts.map dedup)).map (assembleQuad gobi)))

/-- `Term.auto_divide`. -/
def auto_divide (jp kana tt : PyStr) : Except PyErr (Option (List Quad)) :=
  if jp.length = 0 || kana.length = 0 then .ok none
  else if (tt ≠ pystr "英語" && tt ≠ pystr "固有") && !(is_jp_str jp && is_jp_str kana) then
    .error .disabledError
  else if tt = pystr "五段" then
    if pyLastN jp 1 ≠ pyLastN kana 1 || !(gobi9.contains (pyLastN jp 1)) then .ok none
    else auto_divide_tail (jp.take (jp.length - 1)) (kana.take (kana.length - 1))
      (some (pyLastN jp 1, pyLastN kana 1))
  else if tt = pystr "上下" then
    if pyLastN jp 1 ≠ pyLastN kana 1 || pyLastN jp 1 ≠ pystr "る" then .ok none
    else auto_divide_tail (jp.take (jp.length - 1)) (kana.take (kana.length - 1))
      (some (pyLastN jp 1, pyLastN kana 1))
  else if tt = pystr "サ変" then
    if pyLastN jp 2 ≠ pyLastN kana 2 || pyLastN jp 2 ≠ pystr "する" then .ok none
    else auto_divide_tail (jp.take (jp.length - 2)) (kana.take (kana.length - 2))
      (some (pyLastN jp 2, pyLastN kana 2))
  else if tt = pystr "カ変" then
    if jp ≠ pystr "来る" || kana ≠ pystr "くる" then .ok none
    else .ok (some [(pystr "来る", pystr "くる", pystr "0", pystr "0")])
  else if tt = pystr "形容" then
    if pyLastN jp 1 ≠ pyLastN kana 1 || pyLastN jp 1 ≠ pystr "い" then .ok none
    else auto_divide_tail (jp.take (jp.length - 1)) (kana.take (kana.length - 1))
      (some (pyLastN jp 1, pyLastN kana 1))
  else if tt = pystr "名詞" then auto_divide_tail jp kana none
  else if tt = pystr "固有" then
    if !(is_jp_str jp && is_jp_str kana) then .error .disabledError
    else auto_divide_tail jp kana none
  else if tt = pystr "英語" then .ok (some [(jp, kana, pystr "1", pystr "0")])
  else .ok none

/-- The 24-character reading used to drive the candidate count of a single
3-kanji run past the cap: each kept boundary combination contributes
`C(23, 21) = 253` reading distributions. -/
def kana24 : PyStr := List.replicate 24 'あ'

/-- The scheme-1 property the C10 claim asserts of produced candidates: every
`\`-separated element of the division1 string, up to the `*` ending marker, is
"0" (a kanji-run digit) or "-1" (a kana-run marker) — never the length-derived
"1"/"2". -/
def D1Ok (s : PyStr) : Prop :=
  ∀ e ∈ splitChar (s.takeWhile (· ≠ '*')) '\\', e = pystr "0" ∨ e = pystr "-1"

/-- Internal strengthening of `D1Ok` for the pre-gobi core: no `*` inside. -/
def D1Core (s : PyStr) : Prop :=
  '*' ∉ s ∧ ∀ e ∈ splitChar s '\\', e = pystr "0" ∨ e = pystr "-1"

end FA

-- ==================== end of definitions / start of theorems ====================

namespace FA

theorem exc_bind_ok {ε α β : Type} (a : α) (f : α → Except ε β) :
    ((Except.ok a : Except ε α) >>= f) = f a := rfl

theorem exc_bind_err {ε α β : Type} (e : ε) (f : α → Except ε β) :
    ((Except.error e : Except ε α) >>= f) = Except.error e := rfl

theorem dictStep_index_le {d d' : Dict} (h : DictStep d d') : d.index ≤ d'.index := by
  rcases h with ⟨t, rfl⟩ | ⟨i, rfl⟩
  · unfold dicAppend
    split
    · exact le_refl _
    · exact Nat.le_succ _
  · unfold dicRemove
    split
    · exact le_refl _
    · exact le_refl _

theorem dictReach_index_le {d d' : Dict} (h : DictReach d d') : d.index ≤ d'.index := by
  induction h with
  | refl => exact le_refl _
  | tail _ hstep ih => exact le_trans ih (dictStep_index_le hstep)

theorem dicAppend_assigned {d : Dict} {t : Term} {i : Nat}
    (h : (dicAppend d t).2 = some i) : i = d.index := by
  unfold dicAppend at h
  split at h
  · simp at h
  · simp at h
    omega

/-- C7 counterexample: `auto_divide("読む", "よむ", 五段)` returns exactly one
candidate, `("読*む", "よ*む", "0*-1", "0*-1")` — the stem/ending split uses the
`*` separator and `-1` ending digits — and the quadruple the claim names,
`("読/む", "よ/む", "0/0", "0")`, differs from it, so it is not in the list. -/
theorem c7_counterexample_claimed_quad_absent :
    auto_divide (pystr "読む") (pystr "よむ") (pystr "五段") =
      .ok (some [(pystr "読*む", pystr "よ*む", pystr "0*-1", pystr "0*-1")]) ∧
    (pystr "読/む", pystr "よ/む", pystr "0/0", pystr "0") ≠
      ((pystr "読*む", pystr "よ*む", pystr "0*-1", pystr "0*-1") : Quad) := by
  refine ⟨by decide, by decide⟩

/-- C7 (amended): `auto_divide("読む", "よむ", 五段)` includes the candidate
`("読*む", "よ*む", "0*-1", "0*-1")` — indeed it is the only candidate.  (The
claim's `("読/む", "よ/む", "0/0", "0")` is not produced: the godan ending is
re-attached with the gobi separator `*` and `-1` alignment digits, which is
also the only form `Term.is_valid` would accept for a 五段 entry.) -/
theorem c7_godan_includes_starred_quad :
    auto_divide (pystr "読む") (pystr "よむ") (pystr "五段") =
      .ok (some [(pystr "読*む", pystr "よ*む", pystr "0*-1", pystr "0*-1")]) := by
  decide

/-- C9 counterexample: for godan input ("a", "b") the type-specific ending
check fails (last characters differ), but `auto_divide` raises
`AutoDivisionDisabledError` from the charset precheck instead of returning
`None` — the precheck runs before every ending check. -/
theorem c9_counterexample_charset_raises :
    auto_divide (pystr "a") (pystr "b") (pystr "五段") = .error .disabledError := by
  decide

/-- C9 (amended): provided the charset precheck passes (the type is
english/proper-noun, or both spelling and reading lie in the Japanese charset),
`auto_divide` returns `None` — raising nothing and producing no candidates —
whenever spelling or reading is empty, or the type-specific ending check of the
claim fails, or the type label is unknown. -/
theorem c9_auto_divide_returns_none (jp kana tt : PyStr)
    (hcs : tt = pystr "英語" ∨ tt = pystr "固有" ∨ (is_jp_str jp && is_jp_str kana) = true)
    (hcond :
      jp = [] ∨ kana = [] ∨
      (tt = pystr "五段" ∧
        (pyLastN jp 1 ≠ pyLastN kana 1 ∨ ¬ gobi9.contains (pyLastN jp 1) = true)) ∨
      (tt = pystr "上下" ∧ pyLastN jp 1 ≠ pystr "る") ∨
      (tt = pystr "サ変" ∧ pyLastN jp 2 ≠ pystr "する") ∨
      (tt = pystr "形容" ∧ pyLastN jp 1 ≠ pystr "い") ∨
      (tt = pystr "カ変" ∧ (jp ≠ pystr "来る" ∨ kana ≠ pystr "くる")) ∨
      tt ∉ [pystr "名詞", pystr "五段", pystr "上下", pystr "サ変", pystr "カ変",
            pystr "形容", pystr "英語", pystr "固有"]) :
    auto_divide jp kana tt = .ok none := by
  by_cases h0 : (jp.length = 0 || kana.length = 0) = true
  · unfold auto_divide
    rw [if_pos h0]
  · have hcs2 : ((tt ≠ pystr "英語" && tt ≠ pystr "固有") &&
        !(is_jp_str jp && is_jp_str kana)) = false := by
      rcases hcs with h | h | h
      · simp [h]
      · simp [h]
      · rw [h]
        simp
    have hjp : jp ≠ [] := by
      intro hx
      exact h0 (by simp [hx])
    have hkana : kana ≠ [] := by
      intro hx
      exact h0 (by simp [hx])
    unfold auto_divide
    rw [if_neg h0]
    rw [if_neg (show ¬ _ from fun hx => by rw [hcs2] at hx; exact Bool.false_ne_true hx)]
    rcases hcond with h | h | ⟨ht, h⟩ | ⟨ht, h⟩ | ⟨ht, h⟩ | ⟨ht, h⟩ | ⟨ht, h⟩ | h
    · exact absurd h hjp
    · exact absurd h hkana
    · subst ht
      rw [if_pos rfl, if_pos]
      rcases h with h | h
      · simp [h]
      · simp only [Bool.not_eq_true] at h
        rw [h]
        simp
    · subst ht
      rw [if_neg (by decide), if_pos rfl, if_pos]
      simp [h]
    · subst ht
      rw [if_neg (by decide), if_neg (by decide), if_pos rfl, if_pos]
      simp [h]
    · subst ht
      rw [if_neg (by decide), if_neg (by decide), if_neg (by decide),
        if_neg (by decide), if_pos rfl, if_pos]
      simp [h]
    · subst ht
      rw [if_neg (by decide), if_neg (by decide), if_neg (by decide), if_pos rfl, if_pos]
      rcases h with h | h <;> simp [h]
    · simp only [List.mem_cons, List.not_mem_nil, or_false, not_or] at h
      obtain ⟨hn, hg, hi, hs, hk, hke, he, hp⟩ := h
      rw [if_neg (by simp [hg]), if_neg (by simp [hi]), if_neg (by simp [hs]),
        if_neg (by simp [hk]), if_neg (by simp [hke]), if_neg (by simp [hn]),
        if_neg (by simp [hp]), if_neg (by simp [he])]

/-- C9 witness: the amended theorem at godan input ("書く", "かける") — in
charset, ending check fails (く vs る) — evaluating to `None`. -/
theorem c9_auto_divide_returns_none_witness :
    auto_divide (pystr "書く") (pystr "かける") (pystr "五段") = .ok none :=
  c9_auto_divide_returns_none (pystr "書く") (pystr "かける") (pystr "五段")
    (Or.inr (Or.inr (by decide)))
    (Or.inr (Or.inr (Or.inl ⟨rfl, Or.inl (by decide)⟩)))

theorem giGo_length (x : PyStr) (xs : List PyStr) (f : PyStr)
    (rest : Nat → List (List PyStr))
    (hrest : ∀ d, (rest d).length = Nat.choose (xs.length + d) d) :
    ∀ d, (giGo x xs f rest d).length = Nat.choose ((x :: xs).length + d) d := by
  intro d
  induction d with
  | zero => simp [giGo]
  | succ d ih =>
    show ((giGo x xs f rest d).map (f :: ·) ++ ((rest (d + 1)).map (x :: ·))).length = _
    rw [List.length_append, List.length_map, List.length_map, ih, hrest (d + 1)]
    have e1 : (x :: xs).length + (d + 1) = (xs.length + (d + 1)) + 1 := by
      simp
      omega
    have e2 : (x :: xs).length + d = xs.length + (d + 1) := by
      simp
      omega
    rw [e1, Nat.choose_succ_succ', e2]

theorem generate_insertions_length (f : PyStr) :
    ∀ (xs : List PyStr) (d : Nat),
      (generate_insertions xs f d).length = Nat.choose (xs.length + d) d := by
  intro xs
  induction xs with
  | nil =>
    intro d
    show ([List.replicate d f]).length = Nat.choose (0 + d) d
    simp [Nat.choose_self]
  | cons x xs ih =>
    intro d
    show (giGo x xs f (generate_insertions xs f) d).length = _
    exact giGo_length x xs f _ ih d

theorem giGo_sum (g : PyStr → Nat) (x : PyStr) (xs : List PyStr) (f : PyStr)
    (rest : Nat → List (List PyStr))
    (hrest : ∀ d kc, kc ∈ rest d → (kc.map g).sum = (xs.map g).sum + d * g f) :
    ∀ d kc, kc ∈ giGo x xs f rest d →
      (kc.map g).sum = ((x :: xs).map g).sum + d * g f := by
  intro d
  induction d with
  | zero =>
    intro kc hkc
    simp only [giGo, List.mem_singleton] at hkc
    subst hkc
    simp
  | succ d ih =>
    intro kc hkc
    simp only [giGo, List.mem_append, List.mem_map] at hkc
    rcases hkc with ⟨kc2, hkc2, rfl⟩ | ⟨kc2, hkc2, rfl⟩
    · rw [List.map_cons, List.sum_cons, ih kc2 hkc2]
      ring
    · rw [List.map_cons, List.sum_cons, hrest (d + 1) kc2 hkc2, List.map_cons,
        List.sum_cons]
      ring

theorem generate_insertions_sum (g : PyStr → Nat) :
    ∀ (xs : List PyStr) (f : PyStr) (d : Nat), ∀ kc ∈ generate_insertions xs f d,
      (kc.map g).sum = (xs.map g).sum + d * g f := by
  intro xs
  induction xs with
  | nil =>
    intro f d kc hkc
    have he : generate_insertions [] f d = [List.replicate d f] := rfl
    rw [he, List.mem_singleton] at hkc
    subst hkc
    simp [List.map_replicate, List.sum_replicate, smul_eq_mul, Nat.mul_comm]
  | cons x xs ih =>
    intro f d kc hkc
    exact giGo_sum g x xs f _ (fun d2 kc2 h2 => ih f d2 kc2 h2) d kc hkc

theorem splitCharGo_length (x : Char) :
    ∀ (s cur : PyStr), (splitCharGo x cur s).length = s.countP (· == x) + 1 := by
  intro s
  induction s with
  | nil => intro cur; rfl
  | cons c rest ih =>
    intro cur
    unfold splitCharGo
    by_cases hc : c = x
    · rw [if_pos (by simp [hc]), List.length_cons, ih [], List.countP_cons]
      simp [hc]
    · rw [if_neg (by simp [hc]), ih (c :: cur), List.countP_cons]
      simp [hc]

theorem splitChar_length (s : PyStr) (x : Char) :
    (splitChar s x).length = s.countP (· == x) + 1 :=
  splitCharGo_length x s []

theorem countP_zipLongestJoin (p : Char → Bool) :
    ∀ (cs : PyStr) (ss : List PyStr),
      (zipLongestJoin cs ss).countP p = cs.countP p + (ss.map (List.countP p)).sum := by
  intro cs
  induction cs with
  | nil =>
    intro ss
    show (ss.flatten).countP p = _
    simp [List.countP_flatten]
  | cons c cs ih =>
    intro ss
    match ss with
    | [] =>
      show ((c :: zipLongestJoin cs []).countP p) = _
      rw [List.countP_cons, ih []]
      simp [List.countP_cons]
    | s :: ss =>
      show ((c :: (s ++ zipLongestJoin cs ss)).countP p) = _
      rw [List.countP_cons, List.countP_append, ih ss]
      simp only [List.map_cons, List.sum_cons, List.countP_cons]
      ring

theorem removeChar_countP_slash (s : PyStr) :
    (removeChar s '\\').countP (· == '/') = s.countP (· == '/') := by
  unfold removeChar
  rw [List.countP_filter]
  apply List.countP_congr
  intro a _
  constructor
  · intro h
    simp only [Bool.and_eq_true, beq_iff_eq, decide_eq_true_eq] at h
    simp [h.1]
  · intro h
    simp only [beq_iff_eq] at h
    subst h
    decide

theorem kana24_countP_slash : kana24.countP (· == '/') = 0 := by decide

theorem mkCand_ok_of_slashes (jpG kanaG jpChoice : PyStr) (kc : List PyStr)
    (h : (splitChar (removeChar jpChoice '\\') '/').length
        = kanaG.countP (· == '/') + (kc.map (List.countP (· == '/'))).sum + 1) :
    ∃ q, mkCand jpG kanaG jpChoice kc = .ok q := by
  unfold mkCand
  rw [if_neg]
  · exact ⟨_, rfl⟩
  · intro hne
    apply hne
    rw [h, splitChar_length, removeChar_countP_slash, countP_zipLongestJoin]

theorem mapCands_ok_length (f : List PyStr → Except PyErr Quad) :
    ∀ (l : List (List PyStr)), (∀ a ∈ l, ∃ b, f a = .ok b) →
      ∃ l2, mapCands f l = .ok l2 ∧ l2.length = l.length := by
  intro l
  induction l with
  | nil => intro _; exact ⟨[], rfl, rfl⟩
  | cons a rest ih =>
    intro h
    obtain ⟨b, hb⟩ := h a (by simp)
    obtain ⟨l2, hl2, hlen⟩ := ih fun a2 ha2 => h a2 (by simp [ha2])
    refine ⟨b :: l2, ?_, by simp [hlen]⟩
    unfold mapCands
    rw [hb, exc_bind_ok, hl2, exc_bind_ok]

theorem goCombos_step (jpG kanaG : PyStr) (combo : List PyStr)
    (rest : List (List PyStr)) (acc news : List Quad)
    (hcap : acc.length < 2000)
    (hskip : ¬ 1 < combo.count (pystr "/\\"))
    (hlen : ¬ kanaG.length < jpG.length)
    (hnews : mapCands (mkCand jpG kanaG (zipLongestJoin jpG combo))
      (generate_insertions combo (pystr "") (kanaG.length - jpG.length)) = .ok news) :
    goCombos jpG kanaG (combo :: rest) acc = goCombos jpG kanaG rest (acc ++ news) := by
  conv_lhs => unfold goCombos
  rw [if_neg (by omega), if_neg hskip, if_neg hlen, hnews, exc_bind_ok]

theorem goCombos_skip (jpG kanaG : PyStr) (combo : List PyStr)
    (rest : List (List PyStr)) (acc : List Quad)
    (hcap : acc.length < 2000)
    (hskip : 1 < combo.count (pystr "/\\")) :
    goCombos jpG kanaG (combo :: rest) acc = goCombos jpG kanaG rest acc := by
  conv_lhs => unfold goCombos
  rw [if_neg (by omega), if_pos hskip]

theorem tokyoto3_combo_news (combo : List PyStr) (hcl : combo.length = 2)
    (hsl : (splitChar (removeChar (zipLongestJoin (pystr "東京都") combo) '\\') '/').length
        = (combo.map (List.countP (· == '/'))).sum + 1) :
    ∃ news, mapCands (mkCand (pystr "東京都") kana24 (zipLongestJoin (pystr "東京都") combo))
        (generate_insertions combo (pystr "") (kana24.length - (pystr "東京都").length)) = .ok news ∧
      news.length = 253 := by
  have hd : kana24.length - (pystr "東京都").length = 21 := by decide
  rw [hd]
  obtain ⟨l2, hl2, hlen⟩ := mapCands_ok_length
    (mkCand (pystr "東京都") kana24 (zipLongestJoin (pystr "東京都") combo))
    (generate_insertions combo (pystr "") 21)
    (fun kc hkc => by
      apply mkCand_ok_of_slashes
      rw [hsl, kana24_countP_slash,
        generate_insertions_sum (List.countP (· == '/')) combo (pystr "") 21 kc hkc]
      have hz : List.countP (· == '/') (pystr "") = 0 := by decide
      rw [hz]
      omega)
  refine ⟨l2, hl2, ?_⟩
  rw [hlen, generate_insertions_length, hcl]
  decide

theorem c3_kanjiRun_choices_2024 :
    ∃ cs, kanjiRunChoices (pystr "東京都") kana24 = .ok cs ∧ cs.length = 2024 := by
  obtain ⟨n1, hn1, hl1⟩ := tokyoto3_combo_news [pystr "/", pystr "/"] (by decide) (by decide)
  obtain ⟨n2, hn2, hl2⟩ := tokyoto3_combo_news [pystr "/", pystr "/\\"] (by decide) (by decide)
  obtain ⟨n3, hn3, hl3⟩ := tokyoto3_combo_news [pystr "/", pystr ""] (by decide) (by decide)
  obtain ⟨n4, hn4, hl4⟩ := tokyoto3_combo_news [pystr "/\\", pystr "/"] (by decide) (by decide)
  obtain ⟨n6, hn6, hl6⟩ := tokyoto3_combo_news [pystr "/\\", pystr ""] (by decide) (by decide)
  obtain ⟨n7, hn7, hl7⟩ := tokyoto3_combo_news [pystr "", pystr "/"] (by decide) (by decide)
  obtain ⟨n8, hn8, hl8⟩ := tokyoto3_combo_news [pystr "", pystr "/\\"] (by decide) (by decide)
  obtain ⟨n9, hn9, hl9⟩ := tokyoto3_combo_news [pystr "", pystr ""] (by decide) (by decide)
  have hrep : min ((pystr "東京都").length - 1) (kana24.length - 1) = 2 := by decide
  have hcombos : pyProductR [pystr "/", pystr "/\\", pystr ""] 2 =
      [[pystr "/", pystr "/"], [pystr "/", pystr "/\\"], [pystr "/", pystr ""],
       [pystr "/\\", pystr "/"], [pystr "/\\", pystr "/\\"], [pystr "/\\", pystr ""],
       [pystr "", pystr "/"], [pystr "", pystr "/\\"], [pystr "", pystr ""]] := by decide
  unfold kanjiRunChoices
  rw [hrep]
  rw [if_neg (by omega), hcombos]
  rw [goCombos_step _ _ _ _ _ _ (by simp) (by decide) (by decide) hn1]
  rw [goCombos_step _ _ _ _ _ _ (by simp [hl1]) (by decide) (by decide) hn2]
  rw [goCombos_step _ _ _ _ _ _ (by simp [hl1, hl2]) (by decide) (by decide) hn3]
  rw [goCombos_step _ _ _ _ _ _ (by simp [hl1, hl2, hl3]) (by decide) (by decide) hn4]
  rw [goCombos_skip _ _ _ _ _ (by simp [hl1, hl2, hl3, hl4]) (by decide)]
  rw [goCombos_step _ _ _ _ _ _ (by simp [hl1, hl2, hl3, hl4]) (by decide) (by decide) hn6]
  rw [goCombos_step _ _ _ _ _ _ (by simp [hl1, hl2, hl3, hl4, hl6])
    (by decide) (by decide) hn7]
  rw [goCombos_step _ _ _ _ _ _ (by simp [hl1, hl2, hl3, hl4, hl6, hl7])
    (by decide) (by decide) hn8]
  rw [goCombos_step _ _ _ _ _ _ (by simp [hl1, hl2, hl3, hl4, hl6, hl7, hl8])
    (by decide) (by decide) hn9]
  refine ⟨_, rfl, ?_⟩
  simp [hl1, hl2, hl3, hl4, hl6, hl7, hl8, hl9]

theorem c3_auto_divide_ok :
    ∃ l, auto_divide (pystr "東京都") kana24 (pystr "名詞") = .ok (some l) := by
  obtain ⟨cs, hcs, _⟩ := c3_kanjiRun_choices_2024
  refine ⟨(pyProductL ([cs].map dedup)).map (assembleQuad none), ?_⟩
  unfold auto_divide
  rw [if_neg (by decide), if_neg (by decide), if_neg (by decide), if_neg (by decide),
    if_neg (by decide), if_neg (by decide), if_neg (by decide), if_pos rfl]
  unfold auto_divide_tail
  have hruns : buildRunsGo ['東'] (is_kana '東') [ '京', '都'] = [(pystr "東京都", false)] := by
    decide
  have hmatch : reMatch (runPattern [(pystr "東京都", false)]) kana24 =
      .ok (some [(1, kana24)]) := by decide
  show (do
    let m ← reMatch (runPattern (buildRunsGo ['東'] (is_kana '東') ['京', '都'])) kana24
    match m with
    | none => Except.ok none
    | some caps =>
      match reLastIndex caps with
      | none => Except.ok none
      | some li =>
        match partsFor (buildRunsGo ['東'] (is_kana '東') ['京', '都']) (groupsUpTo caps li) with
        | .error .earlyEmptyReturn => Except.ok (some [])
        | .error e => Except.error e
        | .ok parts =>
          Except.ok (some ((pyProductL (parts.map dedup)).map (assembleQuad none)))) = _
  rw [hruns, hmatch, exc_bind_ok]
  have hgroups : groupsUpTo [(1, kana24)] 1 = [kana24] := by decide
  show (match reLastIndex [(1, kana24)] with
    | none => Except.ok none
    | some li =>
      match partsFor [(pystr "東京都", false)] (groupsUpTo [(1, kana24)] li) with
      | .error .earlyEmptyReturn => Except.ok (some [])
      | .error e => Except.error e
      | .ok parts =>
        Except.ok (some ((pyProductL (parts.map dedup)).map (assembleQuad none)))) = _
  have hli : reLastIndex [(1, kana24)] = some 1 := rfl
  rw [hli]
  show (match partsFor [(pystr "東京都", false)] (groupsUpTo [(1, kana24)] 1) with
    | .error .earlyEmptyReturn => Except.ok (some [])
    | .error e => Except.error e
    | .ok parts =>
      Except.ok (some ((pyProductL (parts.map dedup)).map (assembleQuad none)))) = _
  rw [hgroups]
  have hparts : partsFor [(pystr "東京都", false)] [kana24] = .ok [cs] := by
    have e1 : partsFor [(pystr "東京都", false)] [kana24] = (do
        let choices ← kanjiRunChoices (pystr "東京都") kana24
        let parts ← partsFor ([] : List (PyStr × Bool)) ([] : List PyStr)
        Except.ok (choices :: parts)) := rfl
    rw [e1, hcs, exc_bind_ok]
    rfl
  rw [hparts]

/-- C3 counterexample: for input (東京都, 24 kana characters, 名詞) the single
3-kanji run accumulates 2024 candidates — the 2000 cap is only checked when a
boundary combination begins, and the final combination's 253 appends push the
count from 1771 past the cap — yet the call returns normally instead of
raising `AutoDivisionChoiceOverflowError`. -/
theorem c3_counterexample_cap_exceeded_without_abort :
    (∃ cs, kanjiRunChoices (pystr "東京都") kana24 = .ok cs ∧ 2000 < cs.length) ∧
    (∃ l, auto_divide (pystr "東京都") kana24 (pystr "名詞") = .ok (some l)) := by
  constructor
  · obtain ⟨cs, hcs, hlen⟩ := c3_kanjiRun_choices_2024
    exact ⟨cs, hcs, by omega⟩
  · exact c3_auto_divide_ok

/-- C3 (amended): the per-run candidate cap is enforced at combination
boundaries only.  If a run's accumulated candidate count has reached 2000 when
a boundary combination begins, the call aborts with the overflow error; on a
normal return every processed combination began under the cap and the result
retains every accumulated candidate (never truncated) — but the final count may
exceed 2000 by the appends of the last combination, as the counterexample
shows. -/
theorem c3_cap_checked_at_combination_boundaries :
    (∀ (jpG kanaG : PyStr) (combo : List PyStr) (rest : List (List PyStr))
        (acc l : List Quad),
      goCombos jpG kanaG (combo :: rest) acc = .ok l → acc.length < 2000) ∧
    (∀ (jpG kanaG : PyStr) (combo : List PyStr) (rest : List (List PyStr))
        (acc : List Quad), 2000 ≤ acc.length →
      goCombos jpG kanaG (combo :: rest) acc = .error .overflowError) ∧
    (∀ (jpG kanaG : PyStr) (combos : List (List PyStr)) (acc l : List Quad),
      goCombos jpG kanaG combos acc = .ok l → acc.IsPrefix l) := by
  refine ⟨?_, ?_, ?_⟩
  · intro jpG kanaG combo rest acc l h
    by_contra hge
    unfold goCombos at h
    rw [if_pos (by omega)] at h
    cases h
  · intro jpG kanaG combo rest acc hge
    unfold goCombos
    rw [if_pos (by omega)]
  · intro jpG kanaG combos
    induction combos with
    | nil =>
      intro acc l h
      unfold goCombos at h
      cases h
      exact List.prefix_refl _
    | cons combo rest ih =>
      intro acc l h
      unfold goCombos at h
      by_cases hcap : (2000 : Nat) ≤ acc.length
      · rw [if_pos (by omega)] at h
        cases h
      · rw [if_neg (by omega)] at h
        by_cases hskip : 1 < combo.count (pystr "/\\")
        · rw [if_pos hskip] at h
          exact ih acc l h
        · rw [if_neg hskip] at h
          by_cases hlen : kanaG.length < jpG.length
          · rw [if_pos hlen] at h
            have := ih _ _ h
            exact List.IsPrefix.trans (List.prefix_append _ _) this
          · rw [if_neg hlen] at h
            cases hm : mapCands (mkCand jpG kanaG (zipLongestJoin jpG combo))
              (generate_insertions combo (pystr "") (kanaG.length - jpG.length)) with
            | error e =>
              rw [hm, exc_bind_err] at h
              cases h
            | ok news =>
              rw [hm, exc_bind_ok] at h
              have := ih _ _ h
              exact List.IsPrefix.trans (List.prefix_append _ _) this

/-- C3 witness: at a state that has already reached the cap, processing any
further combination aborts with the overflow error. -/
theorem c3_cap_checked_at_combination_boundaries_witness :
    goCombos (pystr "あ") (pystr "あ") [[pystr "/"]]
      (List.replicate 2000 (pystr "あ", pystr "あ", pystr "0", pystr "0")) =
      .error .overflowError :=
  c3_cap_checked_at_combination_boundaries.2.1 (pystr "あ") (pystr "あ") [pystr "/"] []
    (List.replicate 2000 (pystr "あ", pystr "あ", pystr "0", pystr "0")) (by simp)

/-- C6: on a well-formed dictionary state, appending a term that is not already
present assigns the fresh id `d.index` (fresh: no stored row carries it) and
stores the term's row at the end; removing that id restores exactly the prior
row list; the mutated states remain well-formed; and any append performed on
any state reachable from there assigns an id strictly greater than the freed
id, so the freed id is never reused. -/
theorem c6_append_remove_fresh_ids (d : Dict) (t : Term)
    (hwf : DictWF d) (hnew : is_exists d t = false) :
    (dicAppend d t).2 = some d.index ∧
    (∀ r ∈ d.rows, r.1 ≠ d.index) ∧
    (dicAppend d t).1.rows = d.rows ++ [(d.index, t.to_dict)] ∧
    (dicRemove (dicAppend d t).1 d.index).1.rows = d.rows ∧
    (dicRemove (dicAppend d t).1 d.index).2 = true ∧
    DictWF (dicAppend d t).1 ∧
    DictWF (dicRemove (dicAppend d t).1 d.index).1 ∧
    (∀ d', DictReach (dicAppend d t).1 d' →
      ∀ t' i, (dicAppend d' t').2 = some i → d.index < i) := by
  have hnotex : ¬ is_exists d t = true := by simp [hnew]
  have hfresh : ∀ r ∈ d.rows, r.1 ≠ d.index := fun r hr => Nat.ne_of_lt (hwf r hr)
  have hany : (d.rows.any fun r => r.1 = d.index) = false := by
    simp only [List.any_eq_false]
    intro r hr
    simp [hfresh r hr]
  have happ : dicAppend d t = (⟨d.rows ++ [(d.index, t.to_dict)], d.index + 1⟩, some d.index) := by
    unfold dicAppend
    rw [if_neg hnotex]
    unfold setLoc
    rw [hany]
    simp
  have hrows : (dicAppend d t).1.rows = d.rows ++ [(d.index, t.to_dict)] := by rw [happ]
  have hremAny : (((dicAppend d t).1.rows).any fun r => r.1 = d.index) = true := by
    rw [hrows]
    simp
  have hrem : (dicRemove (dicAppend d t).1 d.index).1.rows = d.rows := by
    unfold dicRemove
    rw [if_pos hremAny]
    simp only
    rw [hrows, List.filter_append]
    have h1 : (d.rows.filter fun r => r.1 ≠ d.index) = d.rows := by
      apply List.filter_eq_self.mpr
      intro r hr
      simp [hfresh r hr]
    have h2 : (([(d.index, t.to_dict)] : List (Nat × DicRow)).filter fun r => r.1 ≠ d.index) = [] := by
      simp
    rw [h1, h2, List.append_nil]
  refine ⟨by rw [happ], hfresh, hrows, hrem, ?_, ?_, ?_, ?_⟩
  · unfold dicRemove
    rw [if_pos hremAny]
  · intro r hr
    rw [happ] at hr ⊢
    simp only [List.mem_append, List.mem_singleton] at hr
    rcases hr with hr | hr
    · exact Nat.lt_succ_of_lt (hwf r hr)
    · subst hr
      exact Nat.lt_succ_self _
  · intro r hr
    unfold dicRemove at hr
    rw [if_pos hremAny] at hr
    simp only [List.mem_filter] at hr
    unfold dicRemove
    rw [if_pos hremAny]
    have : r ∈ (dicAppend d t).1.rows := hr.1
    rw [happ] at this ⊢
    simp only [List.mem_append, List.mem_singleton] at this
    rcases this with h | h
    · exact Nat.lt_succ_of_lt (hwf r h)
    · subst h
      exact Nat.lt_succ_self _
  · intro d' hreach t' i hassign
    have h1 : (dicAppend d t).1.index ≤ d'.index := dictReach_index_le hreach
    have h2 : (dicAppend d t).1.index = d.index + 1 := by rw [happ]
    have h3 : i = d'.index := dicAppend_assigned hassign
    omega

/-- C4: construction of the noun Term ("+1", "ぷ", "0", "0", 名詞, 0) succeeds
(`+` and digits are inside the permitted noun charset), its matching template
is the string `^(+1)(.*)$`, and using that template raises `re.error`
("nothing to repeat") instead of matching the canonical spelling — so a valid
Term's template can fail to match its own canonical spelling.  The 固有 branch
escapes pattern metacharacters; the 名詞 (and stem-based) branches forget to,
which is the slip. -/
theorem c4_plus_noun_template_invalid_regex :
    mkTerm (pystr "+1") (pystr "ぷ") (pystr "0") (pystr "0") (pystr "名詞") 0 = .ok plusTerm ∧
    re_pattern plusTerm = .ok (pystr "^(+1)(.*)$") ∧
    reMatch (pystr "^(+1)(.*)$") (remove_seps plusTerm.jp) = .error .reError := by
  refine ⟨by decide, by decide, by decide⟩

/-- C1: the tokenizers are not total.  A line that ends exactly at a priority
directive (or at a failed inline quadruple) leaves `remaining_line` empty and
the subsequent `search_to_token*` call evaluates `line[0]`, raising
`IndexError` — for any dictionary, because the crash happens before any row is
consulted.  This contradicts the spec's totality guarantee; the `while
len(remaining_line) > 0` guard shows emptiness was meant to end the scan, so
the unguarded index in `search_to_token*` is the slip. -/
theorem c1_tokenizer_raises_on_trailing_directive :
    line_to_tokens0 [] (pystr "[1]") = .error .indexError ∧
    line_to_tokens1 [] (pystr "[1]") = .error .indexError ∧
    line_to_tokens2 [] (pystr "[1]") = .error .indexError ∧
    line_to_tokens0 [] (pystr "(a;b;c;d)") = .error .indexError ∧
    line_to_tokens0 [tokyoRow] (pystr "[1]") = .error .indexError := by
  refine ⟨by decide, by decide, by decide, by decide, by decide⟩

/-- C2 counterexample: tokenizing the line `$$` (a doubled control character)
emits the single literal token `$`; the concatenation of the tokens' jp fields
is `$`, not the original line `$$`. -/
theorem c2_counterexample_doubled_dollar :
    line_to_tokens0 [] (pystr "$$") = .ok [mkToken0 (pystr "$")] ∧
    ([mkToken0 (pystr "$")].map Token0.jp).flatten ≠ pystr "$$" := by
  refine ⟨by decide, by decide⟩

theorem matchCustomPat_ne {c : Char} (rest : PyStr) (h : c ≠ '(') :
    matchCustomPat (c :: rest) = none := by
  unfold matchCustomPat
  split
  · rename_i heq
    cases heq
    exact absurd rfl h
  · rfl

theorem matchPriorityPat_ne {c : Char} (rest : PyStr) (h : c ≠ '[') :
    matchPriorityPat (c :: rest) = none := by
  unfold matchPriorityPat
  split
  · rename_i heq
    cases heq
    exact absurd rfl h
  · rfl

theorem tokStep0_miss {c : Char} (rest : PyStr)
    (h1 : c ≠ '$') (h2 : c ≠ '(') (h3 : c ≠ ')') (h4 : c ≠ '[') (h5 : c ≠ ']') :
    tokStep (search_to_token0 []) to_token0 (fun c => mkToken0 [c]) (fun c => mkToken0 [c])
      (c :: rest) = .ok ([mkToken0 [c]], rest) := by
  have hne : ∀ (a b : Char), c ≠ a → (c :: rest.take 1) ≠ [a, b] := by
    intro a b hca hx
    injection hx with hc _
    exact hca hc
  have hd : ((c :: rest).take 2 = pystr "$$"
      || (c :: rest).take 2 = pystr "((" || (c :: rest).take 2 = pystr "))"
      || (c :: rest).take 2 = pystr "[[" || (c :: rest).take 2 = pystr "]]") = false := by
    have e1 : pystr "$$" = ['$', '$'] := rfl
    have e2 : pystr "((" = ['(', '('] := rfl
    have e3 : pystr "))" = [')', ')'] := rfl
    have e4 : pystr "[[" = ['[', '['] := rfl
    have e5 : pystr "]]" = [']', ']'] := rfl
    have ht : (c :: rest).take 2 = c :: rest.take 1 := rfl
    simp only [ht, e1, e2, e3, e4, e5, Bool.or_eq_false_iff, decide_eq_false_iff_not]
    exact ⟨⟨⟨⟨hne '$' '$' h1, hne '(' '(' h2⟩, hne ')' ')' h3⟩, hne '[' '[' h4⟩,
      hne ']' ']' h5⟩
  have hsearch : search_to_token0 [] (c :: rest) 0 = .ok (false, none, c :: rest) := rfl
  unfold tokStep
  simp only [hd, Bool.false_eq_true, if_false, matchCustomPat_ne rest h2,
    matchPriorityPat_ne rest h4]
  split
  · rename_i heq
    cases heq
    exact absurd rfl h1
  · rw [hsearch]
    rfl

theorem lineGo_tokens0_miss (line : PyStr) : ∀ fu : Nat, line.length < fu →
    (∀ c ∈ line, c ≠ '$' ∧ c ≠ '(' ∧ c ≠ ')' ∧ c ≠ '[' ∧ c ≠ ']') →
    lineGo (tokStep (search_to_token0 []) to_token0 (fun c => mkToken0 [c])
        (fun c => mkToken0 [c])) fu line = .ok (line.map fun c => mkToken0 [c]) := by
  induction line with
  | nil =>
    intro fu hfu _
    match fu, hfu with
    | fu + 1, _ => rfl
  | cons c rest ih =>
    intro fu hfu hctl
    match fu, hfu with
    | fu + 1, hfu =>
      have hc := hctl c (by simp)
      unfold lineGo
      rw [if_neg (by simp)]
      rw [tokStep0_miss rest hc.1 hc.2.1 hc.2.2.1 hc.2.2.2.1 hc.2.2.2.2, exc_bind_ok]
      have hrec := ih fu (by simp at hfu ⊢; omega) fun c2 hc2 => hctl c2 (by simp [hc2])
      dsimp only
      rw [hrec, exc_bind_ok]
      rfl

/-- C2 (amended): round-trip holds for every line that triggers no control rule
and no dictionary hit — concretely, a line free of the control characters
`$ ( ) [ ]` tokenized against the empty dictionary is emitted as one
pass-through token per character, and the concatenation of the tokens' jp
fields is the original line.  (The unamended claim fails on control syntax:
`$$` emits `$`; and a dictionary whose template consumes text the decomposition
does not reproduce also breaks it.) -/
theorem c2_round_trip_no_control (line : PyStr)
    (hctl : ∀ c ∈ line, c ≠ '$' ∧ c ≠ '(' ∧ c ≠ ')' ∧ c ≠ '[' ∧ c ≠ ']') :
    line_to_tokens0 [] line = .ok (line.map fun c => mkToken0 [c]) ∧
    ((line.map fun c => mkToken0 [c]).map Token0.jp).flatten = line := by
  constructor
  · exact lineGo_tokens0_miss line (line.length + 1) (Nat.lt_succ_self _) hctl
  · induction line with
    | nil => rfl
    | cons c rest ih =>
      simp only [List.map_cons, List.flatten_cons] at ih ⊢
      rw [ih fun c2 hc2 => hctl c2 (by simp [hc2])]
      rfl

/-- C2 witness: the amended theorem at the concrete line `あいう`. -/
theorem c2_round_trip_no_control_witness :
    line_to_tokens0 [] (pystr "あいう") =
      .ok ((pystr "あいう").map fun c => mkToken0 [c]) ∧
    (((pystr "あいう").map fun c => mkToken0 [c]).map Token0.jp).flatten = pystr "あいう" :=
  c2_round_trip_no_control (pystr "あいう") (by decide)

/-- C8: tokenizing `[1]東京` against a dictionary whose only 東京 entry lives at
priority 1 consumes the directive without emitting a token and matches 東京
against the priority-1 pool, producing the single annotated token; tokenizing
the same line without the directive searches priority 0 only and falls back to
per-character pass-through, confirming the search is restricted to the
requested priority. -/
theorem c8_priority_directive_scopes_search :
    line_to_tokens0 [tokyoRow] (pystr "[1]東京") =
      .ok [⟨pystr "東京", some (pystr "とうきょう"), 0⟩] ∧
    line_to_tokens0 [tokyoRow] (pystr "東京") =
      .ok [mkToken0 (pystr "東"), mkToken0 (pystr "京")] := by
  refine ⟨by decide, by decide⟩

theorem pyInt_err {s : PyStr} {e : PyErr} (h : pyInt s = .error e) : e = .valueError := by
  unfold pyInt at h
  split at h <;> split at h <;> simp_all

theorem mkTerm_err {jp kana d0 d1 ty : PyStr} {p : Int} {e : PyErr}
    (h : mkTerm jp kana d0 d1 ty p = .error e) : e = .valueError := by
  unfold mkTerm at h
  split at h <;> simp_all

theorem transferCheck_str {l : List Cell} (h : ∀ c ∈ l, c ≠ Cell.nan) :
    ∃ b, transferCheck l = .ok b := by
  induction l with
  | nil => exact ⟨true, rfl⟩
  | cons c rest ih =>
    match c with
    | Cell.nan => exact absurd rfl (h Cell.nan (by simp))
    | Cell.str v =>
      unfold transferCheck
      by_cases hv : is_valid_transfer v
      · rw [if_pos hv]
        exact ih fun c hc => h c (by simp [hc])
      · exact ⟨false, by rw [if_neg hv]⟩

theorem termFromRow_str_err {row : DfRow}
    (hstr : ∀ c ∈ requiredCols, ∃ v, rowGet row c = Cell.str v)
    {e : PyErr} (h : termFromRow row = .error e) : e = .valueError := by
  obtain ⟨jp, hjp⟩ := hstr (pystr "Japanese") (by simp [requiredCols])
  obtain ⟨ka, hka⟩ := hstr (pystr "Kana") (by simp [requiredCols])
  obtain ⟨d0, hd0⟩ := hstr (pystr "Division0") (by simp [requiredCols])
  obtain ⟨d1, hd1⟩ := hstr (pystr "Division1") (by simp [requiredCols])
  obtain ⟨ty, hty⟩ := hstr (pystr "Type") (by simp [requiredCols])
  obtain ⟨pr, hpr⟩ := hstr (pystr "Priority") (by simp [requiredCols])
  unfold termFromRow at h
  rw [hjp, hka, hd0, hd1, hty, hpr] at h
  unfold termFromCells at h
  cases hint : cellInt (Cell.str pr) with
  | error e2 =>
    rw [hint] at h
    rw [exc_bind_err] at h
    cases h
    exact pyInt_err hint
  | ok p =>
    rw [hint] at h
    rw [exc_bind_ok] at h
    obtain ⟨b, hb⟩ := transferCheck_str
      (l := [Cell.str jp, Cell.str ka, Cell.str d0, Cell.str d1]) (by simp)
    rw [hb, exc_bind_ok] at h
    cases b with
    | false => simp_all
    | true =>
      simp only [Bool.not_true, Bool.false_eq_true, if_false] at h
      exact mkTerm_err h

theorem failingLabels_str (rows : List (Nat × DfRow))
    (hstr : ∀ r ∈ rows, ∀ c ∈ requiredCols, ∃ v, rowGet r.2 c = Cell.str v) :
    failingLabels rows = .ok ((rows.filter fun r => !rowTermOk r.2).map Prod.fst) := by
  induction rows with
  | nil => rfl
  | cons hd tl ih =>
    have hh := hstr hd (by simp)
    have ihh := ih fun r hr => hstr r (by simp [hr])
    cases htm : termFromRow hd.2 with
    | ok t =>
      have hok : rowTermOk hd.2 = true := by unfold rowTermOk; rw [htm]
      show failingLabels (hd :: tl) = _
      rw [List.filter_cons]
      simp only [hok, Bool.not_true, Bool.false_eq_true, if_false]
      unfold failingLabels
      obtain ⟨i, r⟩ := hd
      simp only at htm
      rw [htm]
      exact ihh
    | error e =>
      have he : e = .valueError := termFromRow_str_err hh htm
      subst he
      have hok : rowTermOk hd.2 = false := by unfold rowTermOk; rw [htm]
      show failingLabels (hd :: tl) = _
      rw [List.filter_cons]
      simp only [hok, Bool.not_false, if_true, List.map_cons]
      unfold failingLabels
      obtain ⟨i, r⟩ := hd
      simp only at htm
      rw [htm, ihh]
      rfl

/-- C5 counterexample: a frame with all six required columns whose single row
has an empty (NaN) Japanese cell makes the load raise `TypeError` instead of
returning normally — refuting "for every row source that has all six columns,
the load returns normally regardless of row contents". -/
theorem c5_counterexample_nan_cell : dicCheck nanJpDf = .error .typeError := by rfl

/-- C5 (amended): bulk load re-validates every row through Term construction;
with all six required columns present and every required cell a string value,
the load returns normally: each failing row is dropped (by label) with one
recorded diagnostic, and the load aborts when a required column is absent.
(The unamended claim fails because a non-string cell - e.g. NaN from an empty
csv field - raises TypeError, which check re-raises.) -/
theorem c5_check_drops_bad_rows_only :
    (∀ df : Df,
      (requiredCols.all fun c => df.cols.any fun c2 => c2 = c) = true →
      (∀ r ∈ df.rows, ∀ c ∈ requiredCols, ∃ v, rowGet r.2 c = Cell.str v) →
      dicCheck df = .ok
        (⟨df.cols, df.rows.filter fun r =>
            !(((df.rows.filter fun r2 => !rowTermOk r2.2).map Prod.fst).contains r.1)⟩,
         (df.rows.filter fun r2 => !rowTermOk r2.2).map Prod.fst)) ∧
    (∀ df : Df, (requiredCols.all fun c => df.cols.any fun c2 => c2 = c) = false →
      dicCheck df = .error .valueError) := by
  constructor
  · intro df hcols hstr
    unfold dicCheck
    rw [hcols]
    rw [failingLabels_str df.rows hstr]
    rfl
  · intro df hcols
    unfold dicCheck
    rw [hcols]
    rfl

/-- C5 witness: the amended theorem instantiated on a concrete two-row frame
(valid row kept, charset-invalid row dropped with its diagnostic). -/
theorem c5_check_drops_bad_rows_only_witness :
    (requiredCols.all fun c => sampleDf.cols.any fun c2 => c2 = c) = true ∧
    dicCheck sampleDf = .ok
      (⟨sampleDf.cols, sampleDf.rows.filter fun r =>
          !(((sampleDf.rows.filter fun r2 => !rowTermOk r2.2).map Prod.fst).contains r.1)⟩,
       (sampleDf.rows.filter fun r2 => !rowTermOk r2.2).map Prod.fst) :=
  ⟨by decide,
   c5_check_drops_bad_rows_only.1 sampleDf (by decide) (by
    intro r hr c hc
    simp only [sampleDf, List.mem_cons, List.not_mem_nil, or_false] at hr
    simp only [requiredCols, List.mem_cons, List.not_mem_nil, or_false] at hc
    rcases hr with rfl | rfl <;>
      rcases hc with rfl | rfl | rfl | rfl | rfl | rfl <;> exact ⟨_, rfl⟩)⟩

/-- C6 witness: the theorem instantiated on the empty dictionary and a sample
term, hypotheses discharged by evaluation. -/
theorem c6_append_remove_fresh_ids_witness :
    DictWF emptyDict ∧ is_exists emptyDict tokyoTerm = false ∧
    ((dicAppend emptyDict tokyoTerm).2 = some emptyDict.index ∧
     (∀ r ∈ emptyDict.rows, r.1 ≠ emptyDict.index) ∧
     (dicAppend emptyDict tokyoTerm).1.rows
        = emptyDict.rows ++ [(emptyDict.index, tokyoTerm.to_dict)] ∧
     (dicRemove (dicAppend emptyDict tokyoTerm).1 emptyDict.index).1.rows = emptyDict.rows ∧
     (dicRemove (dicAppend emptyDict tokyoTerm).1 emptyDict.index).2 = true ∧
     DictWF (dicAppend emptyDict tokyoTerm).1 ∧
     DictWF (dicRemove (dicAppend emptyDict tokyoTerm).1 emptyDict.index).1 ∧
     (∀ d', DictReach (dicAppend emptyDict tokyoTerm).1 d' →
        ∀ t' i, (dicAppend d' t').2 = some i → emptyDict.index < i)) :=
  ⟨by decide, by decide,
    c6_append_remove_fresh_ids emptyDict tokyoTerm (by decide) (by decide)⟩

theorem splitCharGo_append_sep (x : Char) :
    ∀ (a cur b : PyStr),
      splitCharGo x cur (a ++ x :: b) = splitCharGo x cur a ++ splitChar b x := by
  intro a
  induction a with
  | nil => intro cur b; simp [splitCharGo, splitChar]
  | cons c a ih =>
    intro cur b
    by_cases hc : c = x
    · subst hc; simp [splitCharGo, splitChar, ih]
    · simp [splitCharGo, splitChar, hc, ih]

theorem splitChar_append_sep (x : Char) (a b : PyStr) :
    splitChar (a ++ x :: b) x = splitChar a x ++ splitChar b x :=
  splitCharGo_append_sep x a [] b

theorem pyJoin_cons_cons (s t : PyStr) (l2 : List PyStr) :
    pyJoin (pystr "\\") (s :: t :: l2) = s ++ '\\' :: pyJoin (pystr "\\") (t :: l2) := by
  show (s ++ pystr "\\") ++ pyJoin (pystr "\\") (t :: l2) = _
  rw [List.append_assoc]
  rfl

theorem d1core_zero : D1Core (pystr "0") := by
  unfold D1Core
  decide

theorem d1core_neg1 : D1Core (pystr "-1") := by
  unfold D1Core
  decide

theorem star_not_mem_join :
    ∀ (l : List PyStr), (∀ s ∈ l, '*' ∉ s) → '*' ∉ pyJoin (pystr "\\") l := by
  intro l
  induction l with
  | nil => intro _ h; exact absurd h (List.not_mem_nil '*')
  | cons s l ih =>
    intro hall
    cases l with
    | nil => exact hall s (List.mem_singleton_self s)
    | cons t l2 =>
      intro hmem
      rw [pyJoin_cons_cons] at hmem
      rcases List.mem_append.1 hmem with h1 | h2
      · exact hall s (List.mem_cons_self s _) h1
      · rcases List.mem_cons.1 h2 with h3 | h4
        · exact absurd h3 (by decide)
        · exact ih (fun u hu => hall u (List.mem_cons_of_mem s hu)) h4

theorem splitChar_join_elems :
    ∀ (l : List PyStr), l ≠ [] →
      ∀ e ∈ splitChar (pyJoin (pystr "\\") l) '\\', ∃ s ∈ l, e ∈ splitChar s '\\' := by
  intro l
  induction l with
  | nil => intro h; exact absurd rfl h
  | cons s l ih =>
    intro _ e he
    cases l with
    | nil => exact ⟨s, List.mem_singleton_self s, he⟩
    | cons t l2 =>
      rw [pyJoin_cons_cons, splitChar_append_sep] at he
      rcases List.mem_append.1 he with h1 | h2
      · exact ⟨s, List.mem_cons_self s _, h1⟩
      · obtain ⟨u, hu, heu⟩ := ih (by simp) e h2
        exact ⟨u, List.mem_cons_of_mem s hu, heu⟩

theorem d1core_join (l : List PyStr) (hne : l ≠ []) (hall : ∀ s ∈ l, D1Core s) :
    D1Core (pyJoin (pystr "\\") l) := by
  unfold D1Core at hall ⊢
  refine ⟨star_not_mem_join l (fun s hs => (hall s hs).1), ?_⟩
  intro e he
  obtain ⟨s, hs, hes⟩ := splitChar_join_elems l hne e he
  exact (hall s hs).2 e hes

theorem d1core_replicate_zeros (n : Nat) :
    D1Core (pyJoin (pystr "\\") (List.replicate (n + 1) (pystr "0"))) := by
  refine d1core_join _ (by simp) ?_
  intro s hs
  rw [List.eq_of_mem_replicate hs]
  exact d1core_zero

theorem mkCand_d1 (jpG kanaG jpChoice : PyStr) (kc : List PyStr) (q : Quad)
    (h : mkCand jpG kanaG jpChoice kc = .ok q) : D1Core q.2.2.2 := by
  unfold mkCand at h
  dsimp only at h
  split at h
  · simp at h
  · injection h with h
    subst h
    show D1Core (pyJoin (pystr "\\")
      (List.replicate (splitChar (removeChar jpChoice '/') '\\').length (pystr "0")))
    rw [splitChar_length]
    exact d1core_replicate_zeros _

theorem mapCands_mem (f : List PyStr → Except PyErr Quad) :
    ∀ (l : List (List PyStr)) (l2 : List Quad), mapCands f l = .ok l2 →
      ∀ q ∈ l2, ∃ kc ∈ l, f kc = .ok q := by
  intro l
  induction l with
  | nil =>
    intro l2 h q hq
    unfold mapCands at h
    injection h with h
    subst h
    exact absurd hq (List.not_mem_nil q)
  | cons kc rest ih =>
    intro l2 h q hq
    unfold mapCands at h
    cases hf : f kc with
    | error e => simp only [hf, exc_bind_err] at h; simp at h
    | ok q0 =>
      simp only [hf, exc_bind_ok] at h
      cases hr : mapCands f rest with
      | error e => simp only [hr, exc_bind_err] at h; simp at h
      | ok qs =>
        simp only [hr, exc_bind_ok] at h
        injection h with h
        subst h
        rcases List.mem_cons.1 hq with rfl | hq2
        · exact ⟨kc, List.mem_cons_self kc rest, hf⟩
        · obtain ⟨kc2, hkc2, hf2⟩ := ih qs hr q hq2
          exact ⟨kc2, List.mem_cons_of_mem kc hkc2, hf2⟩

theorem goCombos_d1 (jpG kanaG : PyStr) :
    ∀ (combos : List (List PyStr)) (acc l : List Quad),
      (∀ q ∈ acc, D1Core q.2.2.2) → goCombos jpG kanaG combos acc = .ok l →
      ∀ q ∈ l, D1Core q.2.2.2 := by
  intro combos
  induction combos with
  | nil =>
    intro acc l hacc h
    unfold goCombos at h
    injection h with h
    subst h
    exact hacc
  | cons combo rest ih =>
    intro acc l hacc h
    unfold goCombos at h
    split at h
    · simp at h
    · split at h
      · exact ih acc l hacc h
      · dsimp only at h
        split at h
        · refine ih _ l ?_ h
          intro q hq
          rcases List.mem_append.1 hq with h1 | h2
          · exact hacc q h1
          · rw [List.mem_singleton.1 h2]
            exact d1core_zero
        · cases hm : mapCands (mkCand jpG kanaG (zipLongestJoin jpG combo))
              (generate_insertions combo (pystr "") (kanaG.length - jpG.length)) with
          | error e => simp only [hm, exc_bind_err] at h; simp at h
          | ok news =>
            simp only [hm, exc_bind_ok] at h
            refine ih _ l ?_ h
            intro q hq
            rcases List.mem_append.1 hq with h1 | h2
            · exact hacc q h1
            · obtain ⟨kc, _, hfk⟩ := mapCands_mem _ _ news hm q h2
              exact mkCand_d1 _ _ _ _ _ hfk

theorem kanjiRunChoices_d1 (jpG kanaG : PyStr) (l : List Quad)
    (h : kanjiRunChoices jpG kanaG = .ok l) : ∀ q ∈ l, D1Core q.2.2.2 := by
  unfold kanjiRunChoices at h
  dsimp only at h
  split at h
  · injection h with h
    subst h
    intro q hq
    rw [List.mem_singleton.1 hq]
    exact d1core_zero
  · exact goCombos_d1 jpG kanaG _ [] l (fun q hq => absurd hq (List.not_mem_nil q)) h

theorem partsFor_d1 :
    ∀ (runs : List (PyStr × Bool)) (gokans : List PyStr) (parts : List (List Quad)),
      partsFor runs gokans = .ok parts →
      ∀ part ∈ parts, ∀ q ∈ part, D1Core q.2.2.2 := by
  intro runs
  induction runs with
  | nil =>
    intro gokans parts h part hp
    unfold partsFor at h
    injection h with h
    subst h
    exact absurd hp (List.not_mem_nil part)
  | cons r rs ih =>
    obtain ⟨run, flag⟩ := r
    intro gokans parts h part hp
    unfold partsFor at h
    cases gokans with
    | nil => simp at h
    | cons g gs =>
      dsimp only at h
      split at h
      · cases hp2 : partsFor rs gs with
        | error e => simp only [hp2, exc_bind_err] at h; simp at h
        | ok parts2 =>
          simp only [hp2, exc_bind_ok] at h
          injection h with h
          subst h
          rcases List.mem_cons.1 hp with rfl | hmem
          · intro q hq
            rw [List.mem_singleton.1 hq]
            exact d1core_neg1
          · exact ih gs parts2 hp2 part hmem
      · cases hc : kanjiRunChoices run g with
        | error e => simp only [hc, exc_bind_err] at h; simp at h
        | ok choices =>
          simp only [hc, exc_bind_ok] at h
          cases hp2 : partsFor rs gs with
          | error e => simp only [hp2, exc_bind_err] at h; simp at h
          | ok parts2 =>
            simp only [hp2, exc_bind_ok] at h
            injection h with h
            subst h
            rcases List.mem_cons.1 hp with rfl | hmem
            · exact kanjiRunChoices_d1 run g part hc
            · exact ih gs parts2 hp2 part hmem

theorem dedupGo_subset :
    ∀ (l seen : List Quad) (q : Quad), q ∈ dedupGo seen l → q ∈ l := by
  intro l
  induction l with
  | nil =>
    intro seen q h
    unfold dedupGo at h
    exact absurd h (List.not_mem_nil q)
  | cons x rest ih =>
    intro seen q h
    unfold dedupGo at h
    split at h
    · exact List.mem_cons_of_mem x (ih _ q h)
    · rcases List.mem_cons.1 h with rfl | h2
      · exact List.mem_cons_self q rest
      · exact List.mem_cons_of_mem x (ih _ q h2)

theorem pyProductL_mem :
    ∀ (parts : List (List Quad)) (combo : List Quad),
      combo ∈ pyProductL parts → List.Forall₂ (fun q p => q ∈ p) combo parts := by
  intro parts
  induction parts with
  | nil =>
    intro combo h
    unfold pyProductL at h
    rw [List.mem_singleton.1 h]
    exact List.Forall₂.nil
  | cons p ps ih =>
    intro combo h
    unfold pyProductL at h
    rw [List.mem_flatMap] at h
    obtain ⟨x, hx, hm⟩ := h
    rw [List.mem_map] at hm
    obtain ⟨rest, hrest, rfl⟩ := hm
    exact List.Forall₂.cons hx (ih rest hrest)

theorem forall2_mem_left {α β : Type} {R : α → β → Prop} :
    ∀ {l1 : List α} {l2 : List β}, List.Forall₂ R l1 l2 →
      ∀ x ∈ l1, ∃ y ∈ l2, R x y := by
  intro l1 l2 hf
  induction hf with
  | nil => intro x hx; exact absurd hx (List.not_mem_nil x)
  | cons hr _ ih =>
    intro x hx
    rcases List.mem_cons.1 hx with rfl | hx2
    · exact ⟨_, List.mem_cons_self _ _, hr⟩
    · obtain ⟨y, hy, hr2⟩ := ih x hx2
      exact ⟨y, List.mem_cons_of_mem _ hy, hr2⟩

theorem takeWhile_no_star :
    ∀ (s : PyStr), '*' ∉ s → s.takeWhile (· ≠ '*') = s := by
  intro s
  induction s with
  | nil => intro _; rfl
  | cons c rest ih =>
    intro h
    have hc : c ≠ '*' := fun hcc => h (hcc ▸ List.mem_cons_self c rest)
    rw [List.takeWhile_cons, if_pos (decide_eq_true hc),
      ih (fun hm => h (List.mem_cons_of_mem c hm))]

theorem takeWhile_star_append :
    ∀ (a t : PyStr), '*' ∉ a → (a ++ '*' :: t).takeWhile (· ≠ '*') = a := by
  intro a
  induction a with
  | nil => intro t _; rfl
  | cons c a ih =>
    intro t h
    have hc : c ≠ '*' := fun hcc => h (hcc ▸ List.mem_cons_self c a)
    rw [show (c :: a) ++ '*' :: t = c :: (a ++ '*' :: t) from rfl,
      List.takeWhile_cons, if_pos (decide_eq_true hc),
      ih t (fun hm => h (List.mem_cons_of_mem c hm))]

theorem assembleQuad_d1 (gobi : Option (PyStr × PyStr)) (combo : List Quad)
    (hne : combo ≠ []) (hall : ∀ x ∈ combo, D1Core x.2.2.2) :
    D1Ok (assembleQuad gobi combo).2.2.2 := by
  have hcore : D1Core (pyJoin (pystr "\\") (combo.map fun q => q.2.2.2)) := by
    refine d1core_join _ ?_ ?_
    · intro hmap
      cases combo with
      | nil => exact hne rfl
      | cons a b => simp at hmap
    · intro s hs
      rw [List.mem_map] at hs
      obtain ⟨x, hx, rfl⟩ := hs
      exact hall x hx
  cases gobi with
  | none =>
    show D1Ok (pyJoin (pystr "\\") (combo.map fun q => q.2.2.2))
    unfold D1Ok
    rw [takeWhile_no_star _ hcore.1]
    exact hcore.2
  | some p =>
    obtain ⟨gj, gk⟩ := p
    show D1Ok (pyJoin (pystr "\\") (combo.map fun q => q.2.2.2) ++ '*' :: pystr "-1")
    unfold D1Ok
    rw [takeWhile_star_append _ _ hcore.1]
    exact hcore.2

theorem buildRunsGo_ne_nil :
    ∀ (s cur : PyStr) (flag : Bool), buildRunsGo cur flag s ≠ [] := by
  intro s
  induction s with
  | nil => intro cur flag; exact List.cons_ne_nil _ _
  | cons c rest ih =>
    intro cur flag
    unfold buildRunsGo
    split
    · exact ih _ _
    · exact List.cons_ne_nil _ _

theorem partsFor_ne_nil (runs : List (PyStr × Bool)) (gokans : List PyStr)
    (parts : List (List Quad)) (hr : runs ≠ []) (h : partsFor runs gokans = .ok parts) :
    parts ≠ [] := by
  cases runs with
  | nil => exact absurd rfl hr
  | cons r rs =>
    obtain ⟨run, flag⟩ := r
    unfold partsFor at h
    cases gokans with
    | nil => simp at h
    | cons g gs =>
      dsimp only at h
      split at h
      · cases hp2 : partsFor rs gs with
        | error e => simp only [hp2, exc_bind_err] at h; simp at h
        | ok parts2 =>
          simp only [hp2, exc_bind_ok] at h
          injection h with h
          subst h
          exact List.cons_ne_nil _ _
      · cases hc : kanjiRunChoices run g with
        | error e => simp only [hc, exc_bind_err] at h; simp at h
        | ok choices =>
          simp only [hc, exc_bind_ok] at h
          cases hp2 : partsFor rs gs with
          | error e => simp only [hp2, exc_bind_err] at h; simp at h
          | ok parts2 =>
            simp only [hp2, exc_bind_ok] at h
            injection h with h
            subst h
            exact List.cons_ne_nil _ _

theorem auto_divide_tail_d1 (jp0 kana0 : PyStr) (gobi : Option (PyStr × PyStr))
    (l : List Quad) (h : auto_divide_tail jp0 kana0 gobi = .ok (some l)) :
    ∀ q ∈ l, D1Ok q.2.2.2 := by
  cases jp0 with
  | nil => unfold auto_divide_tail at h; simp at h
  | cons c0 rest =>
    unfold auto_divide_tail at h
    cases hm : reMatch (runPattern (buildRunsGo [c0] (is_kana c0) rest)) kana0 with
    | error e => simp only [hm, exc_bind_err] at h; simp at h
    | ok m =>
      simp only [hm, exc_bind_ok] at h
      split at h
      · simp at h
      · split at h
        · simp at h
        · split at h
          · injection h with h
            injection h with h
            subst h
            intro q hq
            exact absurd hq (List.not_mem_nil q)
          · simp at h
          · rename_i parts hp
            injection h with h
            injection h with h
            subst h
            intro q hq
            rw [List.mem_map] at hq
            obtain ⟨combo, hcombo, rfl⟩ := hq
            have hall := pyProductL_mem _ _ hcombo
            refine assembleQuad_d1 gobi combo ?_ ?_
            · intro hcn
              have hpne := partsFor_ne_nil _ _ _
                (buildRunsGo_ne_nil rest [c0] (is_kana c0)) hp
              have hlen := List.Forall₂.length_eq hall
              rw [hcn] at hlen
              cases parts with
              | nil => exact hpne rfl
              | cons p ps => simp at hlen
            · intro x hx
              obtain ⟨part2, hpart2, hx2⟩ := forall2_mem_left hall x hx
              rw [List.mem_map] at hpart2
              obtain ⟨part, hpart, rfl⟩ := hpart2
              exact partsFor_d1 _ _ _ hp part hpart x (dedupGo_subset part [] x hx2)

/-- C10: for every type other than 英語 and カ変, every scheme-1 alignment digit
of every candidate quadruple returned by `auto_divide` — each `\`-separated
element of the division1 string up to the `*` ending marker — is "0" (kanji
run) or "-1" (kana run); the length-based 0/1/2 derivation is applied only to
the division0 digits and never reaches division1. -/
theorem c10_div1_digits_never_length_derived (jp kana tt : PyStr) (l : List Quad)
    (h1 : tt ≠ pystr "英語") (h2 : tt ≠ pystr "カ変")
    (h : auto_divide jp kana tt = .ok (some l)) :
    ∀ q ∈ l, D1Ok q.2.2.2 := by
  unfold auto_divide at h
  rw [if_neg h2, if_neg h1] at h
  split at h
  · simp at h
  · split at h
    · simp at h
    · split at h
      · split at h
        · simp at h
        · exact auto_divide_tail_d1 _ _ _ l h
      · split at h
        · split at h
          · simp at h
          · exact auto_divide_tail_d1 _ _ _ l h
        · split at h
          · split at h
            · simp at h
            · exact auto_divide_tail_d1 _ _ _ l h
          · split at h
            · split at h
              · simp at h
              · exact auto_divide_tail_d1 _ _ _ l h
            · split at h
              · exact auto_divide_tail_d1 _ _ _ l h
              · split at h
                · split at h
                  · simp at h
                  · exact auto_divide_tail_d1 _ _ _ l h
                · simp at h

/-- C10 witness: the theorem instantiated at auto_divide("読む", "よむ", 五段),
whose single candidate carries division1 "0*-1"; hypotheses discharged by
evaluation. -/
theorem c10_div1_digits_never_length_derived_witness : D1Ok (pystr "0*-1") :=
  c10_div1_digits_never_length_derived (pystr "読む") (pystr "よむ") (pystr "五段")
    [(pystr "読*む", pystr "よ*む", pystr "0*-1", pystr "0*-1")]
    (by decide) (by decide) (by decide)
    (pystr "読*む", pystr "よ*む", pystr "0*-1", pystr "0*-1")
    (List.mem_singleton_self _)

end FA
